import Mathlib

/-!
Formal model of the cognitive-loop core of the AI coding agent
(`src/agent/core.py`, `src/agent/tools/base.py`, `src/agent/safety/safety.py`,
`src/agent/memory/persistent_memory.py`, `src/agent/memory/working_memory.py`,
`src/agent/llm_integration.py`), as a shallow embedding in Lean 4.

Conventions used throughout:
- Python strings are Lean `String`s; character-level helpers work on `List Char`
  (`String.data`).  Only the ASCII behaviour of `str.lower`/`str.strip` is
  modelled, which covers every string the modelled code paths manipulate.
- Python floats are modelled as rationals (`ℚ`); wall-clock readings
  (`time.time()`) are passed to the modelled operations as explicit `now`
  arguments.
- JSON-serialisable Python values are the inductive `PyVal`; `json.dumps`
  followed by `json.loads` is the identity on such values, so durable stores
  keep `PyVal`s directly.
- A Python function that can raise is modelled with `Except String`; the
  string is the exception class name.
-/

namespace AgentSpec

/-- JSON-serialisable Python values (the payloads that flow through tool
parameters, preferences and context dictionaries). -/
inductive PyVal where
  | none
  | bool (b : Bool)
  | int (n : Int)
  | rat (q : ℚ)
  | str (s : String)
  | list (xs : List PyVal)
  | dict (entries : List (String × PyVal))

/-- A Python `dict` with string keys, in insertion order. -/
abbrev PyDict := List (String × PyVal)

/-- First binding of a key in an association list (Python `d[k]` /
membership, for dictionaries without duplicate keys; also the row of an SQL
table under its primary key). -/
def alGet {κ β : Type _} [DecidableEq κ] : List (κ × β) → κ → Option β
  | [], _ => Option.none
  | (k, v) :: rest, key => if k = key then some v else alGet rest key

/-- `d[k] = v` on an association list: replaces the first binding of the key,
appends a new binding when absent (Python dict assignment / SQL upsert). -/
def alSet {κ β : Type _} [DecidableEq κ] : List (κ × β) → κ → β → List (κ × β)
  | [], key, v => [(key, v)]
  | (k, w) :: rest, key, v =>
    if k = key then (key, v) :: rest else (k, w) :: alSet rest key v

theorem alGet_alSet {κ β : Type _} [DecidableEq κ] (m : List (κ × β)) (k k' : κ) (v : β) :
    alGet (alSet m k v) k' = if k = k' then some v else alGet m k' := by
  induction m with
  | nil => by_cases h : k = k' <;> simp [alSet, alGet, h]
  | cons p rest ih =>
    obtain ⟨k0, v0⟩ := p
    by_cases h0 : k0 = k
    · by_cases h1 : k = k' <;> simp [alSet, alGet, h0, h1]
    · simp only [alSet, if_neg h0]
      by_cases h1 : k0 = k'
      · have : ¬ k = k' := fun h => h0 (h1.trans h.symm)
        simp [alGet, h1, this]
      · simp [alGet, h1, ih]

/-- Reduction of a successful `Except` bind (do-notation step). -/
theorem exceptBind_ok {ε α β : Type _} (a : α) (f : α → Except ε β) :
    (Except.ok a >>= f : Except ε β) = f a := rfl

/-- `pure` on `Except` is `.ok`. -/
theorem exceptPure_eq {ε α : Type _} (a : α) : (pure a : Except ε α) = .ok a := rfl

/-! ## Python string primitives (`str.lower`, `str.strip`, `in`, `split`) -/

/-- ASCII `str.lower` on one character. -/
def pyLowerChar (c : Char) : Char :=
  if 'A' ≤ c ∧ c ≤ 'Z' then Char.ofNat (c.toNat + 32) else c

/-- Python `\s` / `str.isspace` for the ASCII range. -/
def pyIsSpaceChar (c : Char) : Bool :=
  c = ' ' ∨ c = Char.ofNat 9 ∨ c = Char.ofNat 10 ∨ c = Char.ofNat 13 ∨
    c = Char.ofNat 11 ∨ c = Char.ofNat 12

/-- `str.lower` (ASCII fragment). -/
def pyLower (s : List Char) : List Char := s.map pyLowerChar

/-- `str.strip()`: remove leading and trailing whitespace. -/
def pyStrip (s : List Char) : List Char :=
  ((s.dropWhile pyIsSpaceChar).reverse.dropWhile pyIsSpaceChar).reverse

/-- If `pat` is a leading run of `s`, return the remainder. -/
def leadRest : List Char → List Char → Option (List Char)
  | [], s => some s
  | _ :: _, [] => Option.none
  | p :: ps, c :: cs => if p = c then leadRest ps cs else Option.none

/-- Python substring containment `needle in hay`. -/
def hasSub (needle : List Char) : List Char → Bool
  | [] => (leadRest needle []).isSome
  | c :: cs => (leadRest needle (c :: cs)).isSome || hasSub needle cs

/-- Python `str.startswith`. -/
def headMatches (pat s : List Char) : Bool := (leadRest pat s).isSome

/-- Helper for `pySplitSep`: `cur` is the reversed current fragment; the `Nat`
fuel strictly exceeds the remaining length, so the `0` case is unreachable. -/
def pySplitSepFuel (sep : List Char) : Nat → List Char → List Char → List (List Char)
  | 0, cur, rest => [cur.reverse ++ rest]
  | _ + 1, cur, [] => [cur.reverse]
  | fuel + 1, cur, c :: cs =>
    match leadRest sep (c :: cs) with
    | some rest => cur.reverse :: pySplitSepFuel sep fuel [] rest
    | Option.none => pySplitSepFuel sep fuel (c :: cur) cs

/-- Python `str.split(sep)` with a non-empty separator: split on every
non-overlapping occurrence, left to right, keeping empty fragments. -/
def pySplitSep (sep hay : List Char) : List (List Char) :=
  if sep.isEmpty then [hay] else pySplitSepFuel sep (hay.length + 1) [] hay

/-- Python `str.split(sep, 1)`: fragments before and after the first
occurrence of `sep`, or `none` when `sep` does not occur. -/
def splitAtFirst (sep : List Char) : List Char → Option (List Char × List Char)
  | [] => match leadRest sep [] with
    | some r => some ([], r)
    | Option.none => Option.none
  | c :: cs =>
    match leadRest sep (c :: cs) with
    | some rest => some ([], rest)
    | Option.none =>
      match splitAtFirst sep cs with
      | some (a, b) => some (c :: a, b)
      | Option.none => Option.none

/-- Helper for `pyWords`: `cur` is the reversed current word. -/
def pyWordsAux : List Char → List Char → List (List Char)
  | cur, [] => if cur.isEmpty then [] else [cur.reverse]
  | cur, c :: cs =>
    if pyIsSpaceChar c then
      if cur.isEmpty then pyWordsAux [] cs else cur.reverse :: pyWordsAux [] cs
    else pyWordsAux (c :: cur) cs

/-- Python `str.split()` with no argument: whitespace-run split, no empties. -/
def pyWords (s : List Char) : List (List Char) := pyWordsAux [] s

/-- String-level wrappers. -/
def pyLowerS (s : String) : String := .mk (pyLower s.data)

def pyStripS (s : String) : String := .mk (pyStrip s.data)

def hasSubS (needle hay : String) : Bool := hasSub needle.data hay.data

def headMatchesS (pat s : String) : Bool := headMatches pat.data s.data

/-- Python truthiness on `PyVal` (`bool(v)`). -/
def pyTruthy : PyVal → Bool
  | .none => false
  | .bool b => b
  | .int n => n ≠ 0
  | .rat q => q ≠ 0
  | .str s => ¬ s.isEmpty
  | .list xs => ¬ xs.isEmpty
  | .dict entries => ¬ entries.isEmpty

/-! ## `Agent._split_task_into_steps` (`src/agent/core.py` 473-490) -/

/-- The fixed delimiter phrases, in the order the source tries them. -/
def taskDelimiters : List String :=
  [" and then ", " after that ", " followed by ", " then ", " next "]

/-- One pass of the `for delimiter in delimiters` loop: the first delimiter
contained in `task.lower()` wins (the loop `break`s), its split is stripped
fragment-wise and empty fragments are dropped. -/
def splitStepsOnDelims : List String → String → List String
  | [], _ => []
  | d :: ds, task =>
    if hasSubS d (pyLowerS task) then
      (((pySplitSep d.data (pyLower task.data)).map pyStrip).filter
        (fun p => ¬ p.isEmpty)).map String.mk
    else splitStepsOnDelims ds task

/-- `Agent._split_task_into_steps`: when no delimiter matched (or every
fragment stripped to empty) the whole input is the single step, unmodified. -/
def splitTaskIntoSteps (task : String) : List String :=
  let steps := splitStepsOnDelims taskDelimiters task
  if steps.isEmpty then [task] else steps

/-- The steps produced once the first contained delimiter `d` is chosen. -/
def stepsForDelim (d task : String) : List String :=
  (((pySplitSep d.data (pyLower task.data)).map pyStrip).filter
    (fun p => ¬ p.isEmpty)).map String.mk

/-- C5, counterexample.  The claim asserts that an input containing no
delimiter phrase splits into the single-element list holding the *trimmed*
input; `_split_task_into_steps` returns the input unmodified, so the
delimiter-free input `"  read a.txt  "` refutes it. -/
theorem c5_counterexample :
    (∀ d ∈ taskDelimiters, hasSubS d (pyLowerS "  read a.txt  ") = false)
    ∧ pyStripS "  read a.txt  " = "read a.txt"
    ∧ splitTaskIntoSteps "  read a.txt  " ≠ ["read a.txt"] := by
  decide

/-- C5 (amended): splitting `"read a.txt and then read b.txt"` yields exactly
`["read a.txt", "read b.txt"]`; an input whose lowercasing contains none of
the fixed delimiter phrases yields the single-element list holding the input
*unchanged* (not trimmed); and when delimiters occur, the first delimiter in
the fixed list order wins, the result being the stripped non-empty fragments
of the lowercased input (the whole input again if all fragments strip to
empty). -/
theorem c5_split_amended :
    splitTaskIntoSteps "read a.txt and then read b.txt" = ["read a.txt", "read b.txt"]
    ∧ (∀ task : String, (∀ d ∈ taskDelimiters, hasSubS d (pyLowerS task) = false) →
        splitTaskIntoSteps task = [task])
    ∧ (∀ task d, taskDelimiters.find? (fun d0 => hasSubS d0 (pyLowerS task)) = some d →
        splitTaskIntoSteps task =
          (if (stepsForDelim d task).isEmpty then [task] else stepsForDelim d task)) := by
  refine ⟨by decide, ?_, ?_⟩
  · intro task h
    have h1 := h " and then " (by simp [taskDelimiters])
    have h2 := h " after that " (by simp [taskDelimiters])
    have h3 := h " followed by " (by simp [taskDelimiters])
    have h4 := h " then " (by simp [taskDelimiters])
    have h5 := h " next " (by simp [taskDelimiters])
    simp [splitTaskIntoSteps, taskDelimiters, splitStepsOnDelims, h1, h2, h3, h4, h5]
  · intro task d hfind
    simp only [taskDelimiters, List.find?] at hfind
    by_cases c1 : hasSubS " and then " (pyLowerS task)
    · rw [c1] at hfind
      simp only [Option.some.injEq] at hfind
      subst hfind
      simp [splitTaskIntoSteps, taskDelimiters, splitStepsOnDelims, c1, stepsForDelim]
    · rw [Bool.of_not_eq_true c1] at hfind
      by_cases c2 : hasSubS " after that " (pyLowerS task)
      · rw [c2] at hfind
        simp only [Option.some.injEq] at hfind
        subst hfind
        simp [splitTaskIntoSteps, taskDelimiters, splitStepsOnDelims, c1, c2, stepsForDelim]
      · rw [Bool.of_not_eq_true c2] at hfind
        by_cases c3 : hasSubS " followed by " (pyLowerS task)
        · rw [c3] at hfind
          simp only [Option.some.injEq] at hfind
          subst hfind
          simp [splitTaskIntoSteps, taskDelimiters, splitStepsOnDelims, c1, c2, c3,
            stepsForDelim]
        · rw [Bool.of_not_eq_true c3] at hfind
          by_cases c4 : hasSubS " then " (pyLowerS task)
          · rw [c4] at hfind
            simp only [Option.some.injEq] at hfind
            subst hfind
            simp [splitTaskIntoSteps, taskDelimiters, splitStepsOnDelims, c1, c2, c3, c4,
              stepsForDelim]
          · rw [Bool.of_not_eq_true c4] at hfind
            by_cases c5 : hasSubS " next " (pyLowerS task)
            · rw [c5] at hfind
              simp only [Option.some.injEq] at hfind
              subst hfind
              simp [splitTaskIntoSteps, taskDelimiters, splitStepsOnDelims, c1, c2, c3, c4,
                c5, stepsForDelim]
            · rw [Bool.of_not_eq_true c5] at hfind
              simp at hfind

/-- C5 witness: the amended theorem applied at concrete inputs. -/
theorem c5_split_amended_witness :
    splitTaskIntoSteps "hello world" = ["hello world"]
    ∧ splitTaskIntoSteps "build it then ship it" = ["build it", "ship it"] := by
  refine ⟨c5_split_amended.2.1 "hello world" (by decide), ?_⟩
  have h := c5_split_amended.2.2 "build it then ship it" " then " (by decide)
  rw [h]
  decide

/-! ## Tool contract and registry (`src/agent/tools/base.py`) -/

/-- A tool's declared parameter schema, after `BaseTool.validate_parameters`
reads it with `self.parameters.get("required", [])` and
`self.parameters.get("optional", {})`. -/
structure ToolSchema where
  requiredParams : List String
  optionalParams : List (String × PyVal)

/-- Python `key in container` for a string key: dict-key membership, substring
test on strings, element equality on lists; `TypeError` otherwise. -/
def pyMemberStr : PyVal → String → Except String Bool
  | .dict d, k => .ok (alGet d k).isSome
  | .str s, k => .ok (hasSubS k s)
  | .list xs, k => .ok (xs.any fun v => match v with | .str s => s = k | _ => false)
  | _, _ => .error "TypeError"

/-- Python `container[key]` for a string key: only dictionaries support it
(`KeyError` on a missing key, `TypeError` on non-dict containers). -/
def pyGetItemStr : PyVal → String → Except String PyVal
  | .dict d, k =>
    match alGet d k with
    | some v => .ok v
    | Option.none => .error "KeyError"
  | _, _ => .error "TypeError"

/-- The envelope unwrap at the top of `validate_parameters`:
`if "required" in parameters: parameters = parameters["required"]`
`elif "optional" in parameters: parameters = parameters["optional"]`. -/
def unwrapEnvelope (parameters : PyDict) : PyVal :=
  match alGet parameters "required" with
  | some v => v
  | Option.none =>
    match alGet parameters "optional" with
    | some v => v
    | Option.none => .dict parameters

/-- The `for param in required_params` loop: accumulate one
`"Missing required parameter: ..."` error per absent name, copy present ones
into the validated dict. -/
def checkRequired (params : PyVal) :
    List String → List String → PyDict → Except String (List String × PyDict)
  | [], errs, vals => .ok (errs, vals)
  | p :: ps, errs, vals => do
    let b ← pyMemberStr params p
    if b then
      let v ← pyGetItemStr params p
      checkRequired params ps errs (alSet vals p v)
    else
      checkRequired params ps (errs ++ ["Missing required parameter: " ++ p]) vals

/-- Unwrapping of an optional value supplied as a `{"default": ...}` or
`{"value": ...}` envelope (any other dict falls back to the schema default). -/
def unwrapOptValue (defaultV : PyVal) : PyVal → PyVal
  | .dict d =>
    match alGet d "default" with
    | some v => v
    | Option.none =>
      match alGet d "value" with
      | some v => v
      | Option.none => defaultV
  | v => v

/-- The `for param, default_value in optional_params.items()` loop. -/
def checkOptional (params : PyVal) :
    List (String × PyVal) → PyDict → Except String PyDict
  | [], vals => .ok vals
  | (p, dflt) :: ps, vals => do
    let b ← pyMemberStr params p
    if b then
      let v ← pyGetItemStr params p
      checkOptional params ps (alSet vals p (unwrapOptValue dflt v))
    else
      checkOptional params ps (alSet vals p dflt)

/-- The two result shapes of `validate_parameters`:
`{"valid": False, "errors": ...}` or `{"valid": True, "parameters": ...}`. -/
inductive Validation where
  | invalid (errors : List String)
  | valid (parameters : PyDict)

/-- `BaseTool.validate_parameters` (`src/agent/tools/base.py` 24-70). -/
def validateParameters (schema : ToolSchema) (parameters : PyDict) :
    Except String Validation := do
  let params := unwrapEnvelope parameters
  let (errs, vals) ← checkRequired params schema.requiredParams [] []
  let vals ← checkOptional params schema.optionalParams vals
  if errs.isEmpty then return .valid vals else return .invalid errs

/-- An optional-parameter spec dict `{"type": ..., "default": ...,
"description": ...}` as the tool sources write them. -/
def optSpec (ty : String) (dflt : PyVal) (desc : String) : PyVal :=
  .dict [("type", .str ty), ("default", dflt), ("description", .str desc)]

/-- The registry built by `Agent._register_tools` (`src/agent/core.py`
61-115): the 21 registered tool names with the `parameters` schema each tool
class declares.  `delete_file` and `git_merge` are *not* registered. -/
def agentToolRegistry : List (String × ToolSchema) := [
  ("read_file", ⟨["file_path"], []⟩),
  ("write_file", ⟨["file_path", "content"], []⟩),
  ("list_directory", ⟨[], [("path", .dict [("type", .str "string"), ("default", .str ".")])]⟩),
  ("git_status", ⟨[], []⟩),
  ("git_diff", ⟨[], [("file_path", .str "")]⟩),
  ("git_commit", ⟨["message"], [("files", .list [])]⟩),
  ("run_command", ⟨["command"],
    [("working_directory", optSpec "string" (.str "") "Directory to run the command in")]⟩),
  ("run_tests", ⟨[], [("test_path", optSpec "string" (.str "") "Path to tests"),
    ("test_framework", optSpec "string" (.str "") "Test framework to use")]⟩),
  ("build_project", ⟨[], [("target", optSpec "string" (.str "") "Build target"),
    ("configuration", optSpec "string" (.str "release") "Build configuration")]⟩),
  ("run_linter", ⟨[], [("file_path", optSpec "string" (.str "")
      "Path to the file to lint (if empty, lints the whole project)"),
    ("linter", optSpec "string" (.str "") "Linter to use (auto-detected if not specified)")]⟩),
  ("analyze_dependencies", ⟨[], [("file_path", optSpec "string" (.str "")
      "Path to dependency file (auto-detected if not specified)")]⟩),
  ("find_references", ⟨["name"], [("file_path", optSpec "string" (.str "")
      "Path to search in (if empty, searches the whole project)"),
    ("file_type", optSpec "string" (.str "") "File type to search in (e.g., .py, .js, .java)")]⟩),
  ("search_codebase", ⟨["pattern"], [("file_pattern", optSpec "string" (.str "*")
      "Pattern to match file names (e.g., *.py)"),
    ("case_sensitive", optSpec "boolean" (.bool false)
      "Whether to perform case-sensitive search"),
    ("include_binary", optSpec "boolean" (.bool false)
      "Whether to include binary files in search")]⟩),
  ("get_structure", ⟨[], [("path", optSpec "string" (.str ".")
      "Path to get structure for (default: current directory)"),
    ("max_depth", optSpec "integer" (.int 5) "Maximum depth to traverse"),
    ("include_files", optSpec "boolean" (.bool true)
      "Whether to include files in the structure"),
    ("exclude_patterns", optSpec "array"
      (.list [.str "__pycache__", .str ".git", .str "node_modules", .str ".vscode"])
      "Patterns to exclude from the structure")]⟩),
  ("backup_file", ⟨["file_path"], [("backup_dir", optSpec "string" (.str "")
      "Directory to store backups (default: .agent_backups)")]⟩),
  ("restore_file", ⟨["backup_path"], [("target_path", optSpec "string" (.str "")
      "Path where the file should be restored (default: original location)"),
    ("create_backup", optSpec "boolean" (.bool true)
      "Whether to create a backup of the current file before restoring")]⟩),
  ("list_backups", ⟨[], [("backup_dir", optSpec "string" (.str "")
      "Directory to search for backups (default: .agent_backups)"),
    ("file_pattern", optSpec "string" (.str "") "Pattern to filter backups (default: all)")]⟩),
  ("generate_test", ⟨["file_path", "function_name"],
    [("test_framework", optSpec "string" (.str "")
      "Test framework to use (auto-detected if not specified)")]⟩),
  ("set_preference", ⟨["key", "value"], []⟩),
  ("show_preferences", ⟨[], []⟩),
  ("show_learning", ⟨[], []⟩)]

/-- The registered tool names (`ToolRegistry.list_tools` projections). -/
def registeredToolNames : List String := agentToolRegistry.map Prod.fst

/-- `ToolRegistry.get_tool` applied to `action.get("tool_name")` (which may be
`None` when the key is absent). -/
def registryGet (reg : List (String × ToolSchema)) : Option String → Option ToolSchema
  | some name => alGet reg name
  | Option.none => Option.none

/-! ## Safety classification (`src/agent/safety/safety.py` 26-69) -/

def destructiveOperations : List String :=
  ["write_file", "delete_file", "git_commit", "git_merge", "run_command", "build_project"]

def highRiskOperations : List String := ["delete_file", "git_merge", "run_command"]

/-- `SafetyFramework.is_destructive` (a `None` tool name is never listed). -/
def isDestructive : Option String → Bool
  | some op => destructiveOperations.contains op
  | Option.none => false

/-! ## `Agent.act` (`src/agent/core.py` 252-344) -/

/-- How Python renders an optional tool name inside an f-string. -/
def showOptName : Option String → String
  | some s => s
  | Option.none => "None"

/-- `dict.update(other)`: merge the other mapping's bindings in order;
a non-mapping argument raises. -/
def dictUpdate (base : PyDict) (other : PyVal) : Except String PyDict :=
  match other with
  | .dict d => .ok (d.foldl (fun acc kv => alSet acc kv.1 kv.2) base)
  | _ => .error "TypeError"

/-- `Agent._fix_parameter_structure`: strip an `"optional"`/`"required"`
wrapper (in that order), then the `analyze_dependencies`-specific
`{"default"/"value": ...}` unwrap of `file_path`. -/
def fixParameterStructure (toolName : Option String) (parameters : PyDict) :
    Except String PyDict := do
  let fixed ←
    match alGet parameters "optional" with
    | some v => dictUpdate [] v
    | Option.none =>
      match alGet parameters "required" with
      | some v => dictUpdate [] v
      | Option.none => pure parameters
  if toolName = some "analyze_dependencies" then
    match alGet fixed "file_path" with
    | some (.dict d) =>
      match alGet d "default" with
      | some v => pure (alSet fixed "file_path" v)
      | Option.none =>
        match alGet d "value" with
        | some v => pure (alSet fixed "file_path" v)
        | Option.none => pure (alSet fixed "file_path" (.str ""))
    | _ => pure fixed
  else
    pure fixed

/-- A tool-call result; only the fields `act` itself writes are modelled
(`execution_time`, a wall-clock reading, is omitted). -/
structure ActResult where
  success : Bool
  error : Option String
  message : String

/-- The early-return records of `Agent.act`. -/
def cancelledResult (toolName : Option String) : ActResult :=
  { success := false, error := some "Operation cancelled by user",
    message := "User cancelled the " ++ showOptName toolName ++ " operation" }

def unknownToolResult (toolName : Option String) : ActResult :=
  { success := false, error := some ("Tool " ++ showOptName toolName ++ " not found"),
    message := "Unknown tool requested" }

def invalidParamsResult (errors : List String) : ActResult :=
  { success := false, error := some "Invalid parameters",
    message := "Parameter validation failed: " ++ String.intercalate ", " errors }

/-- The action dict `reason` hands to `act`: `action.get("tool_name")`
(absent ↦ `None`) and `action.get("parameters", {})`. -/
structure AgentAction where
  toolName : Option String
  parameters : PyDict

/-- `Agent.act`.  The outcome of `safety.request_approval` (modelled in its
own right below) enters as `approvalOutcome`; the tool's own `execute` result
(out of scope per §1) enters as `execResult`.  The second component of the
result records the `execute` call actually made, `none` when no tool ran; the
mirroring of a successful `read_file` into working memory is modelled with
`WorkingMemory.storeFileContent` below. -/
def act (autoApprove approvalOutcome : Bool) (execResult : ActResult)
    (action : AgentAction) : Except String (ActResult × Option (String × PyDict)) :=
  let toolName := action.toolName
  if isDestructive toolName && !autoApprove && !approvalOutcome then
    .ok (cancelledResult toolName, Option.none)
  else
    match registryGet agentToolRegistry toolName with
    | Option.none => .ok (unknownToolResult toolName, Option.none)
    | some tool =>
      match fixParameterStructure toolName action.parameters with
      | .error e => .error e
      | .ok fixed =>
        match validateParameters tool fixed with
        | .error e => .error e
        | .ok (.invalid errors) => .ok (invalidParamsResult errors, Option.none)
        | .ok (.valid params) => .ok (execResult, some (showOptName toolName, params))

/-- On a dictionary the required-parameter loop never raises and collects one
error per missing required name, in declaration order. -/
theorem checkRequired_dict (inner : PyDict) :
    ∀ (ps errs : List String) (vals : PyDict),
      ∃ vals', checkRequired (.dict inner) ps errs vals =
        .ok (errs ++ (ps.filter fun p => (alGet inner p).isNone).map
          (fun p => "Missing required parameter: " ++ p), vals') := by
  intro ps
  induction ps with
  | nil =>
    intro errs vals
    exact ⟨vals, by simp [checkRequired]⟩
  | cons p ps ih =>
    intro errs vals
    cases h : alGet inner p with
    | none =>
      obtain ⟨vals', hv⟩ := ih (errs ++ ["Missing required parameter: " ++ p]) vals
      refine ⟨vals', ?_⟩
      simp only [checkRequired, pyMemberStr, h, Option.isSome_none, exceptBind_ok,
        Bool.false_eq_true, if_false, hv, List.filter_cons, Option.isNone_none,
        List.map_cons, List.append_assoc, List.singleton_append, if_true]
    | some v =>
      obtain ⟨vals', hv⟩ := ih errs (alSet vals p v)
      refine ⟨vals', ?_⟩
      simp only [checkRequired, pyMemberStr, h, Option.isSome_some, exceptBind_ok,
        if_true, pyGetItemStr, hv, List.filter_cons, Option.isNone_some,
        Bool.false_eq_true, if_false]

/-- On a dictionary the optional-parameter loop never raises. -/
theorem checkOptional_dict (inner : PyDict) :
    ∀ (os : List (String × PyVal)) (vals : PyDict),
      ∃ vals', checkOptional (.dict inner) os vals = .ok vals' := by
  intro os
  induction os with
  | nil =>
    intro vals
    exact ⟨vals, by simp [checkOptional]⟩
  | cons o os ih =>
    intro vals
    obtain ⟨p, dflt⟩ := o
    cases h : alGet inner p with
    | none =>
      obtain ⟨vals', hv⟩ := ih (alSet vals p dflt)
      exact ⟨vals', by simp only [checkOptional, pyMemberStr, h, Option.isSome_none,
        exceptBind_ok, Bool.false_eq_true, if_false, hv]⟩
    | some v =>
      obtain ⟨vals', hv⟩ := ih (alSet vals p (unwrapOptValue dflt v))
      exact ⟨vals', by simp only [checkOptional, pyMemberStr, h, Option.isSome_some,
        exceptBind_ok, if_true, pyGetItemStr, hv]⟩

/-- C4: when the parameter dict (after unwrapping a `required`/`optional`
envelope) is a dictionary that omits one or more required names,
`validate_parameters` returns `valid=False` with exactly one error per missing
required name (all of them, in order); on any dictionary payload it never
raises; and `Agent.act` then fails without calling `execute`. -/
theorem c4_missing_required_params :
    (∀ (schema : ToolSchema) (parameters inner : PyDict),
      unwrapEnvelope parameters = .dict inner →
      (schema.requiredParams.filter fun p => (alGet inner p).isNone) ≠ [] →
      validateParameters schema parameters =
        .ok (.invalid ((schema.requiredParams.filter fun p => (alGet inner p).isNone).map
          (fun p => "Missing required parameter: " ++ p))))
    ∧ (∀ (schema : ToolSchema) (parameters inner : PyDict),
      unwrapEnvelope parameters = .dict inner →
      ∃ v, validateParameters schema parameters = .ok v)
    ∧ (∀ (autoApprove approvalOutcome : Bool) (execResult : ActResult)
        (action : AgentAction) (tool : ToolSchema) (fixed : PyDict) (errors : List String),
      registryGet agentToolRegistry action.toolName = some tool →
      fixParameterStructure action.toolName action.parameters = .ok fixed →
      validateParameters tool fixed = .ok (.invalid errors) →
      ∃ res, act autoApprove approvalOutcome execResult action = .ok (res, Option.none)
        ∧ res.success = false) := by
  refine ⟨?_, ?_, ?_⟩
  · intro schema parameters inner hun hmiss
    obtain ⟨vals', hreq⟩ := checkRequired_dict inner schema.requiredParams [] []
    obtain ⟨vals'', hopt⟩ := checkOptional_dict inner schema.optionalParams vals'
    have hne : ¬ ((schema.requiredParams.filter fun p => (alGet inner p).isNone).map
        (fun p => "Missing required parameter: " ++ p)).isEmpty := by
      cases hl : schema.requiredParams.filter fun p => (alGet inner p).isNone with
      | nil => exact absurd hl hmiss
      | cons a l => simp [hl]
    simp only [validateParameters, hun, hreq, List.nil_append, exceptBind_ok, hopt,
      hne, if_false, Bool.false_eq_true, exceptPure_eq]
  · intro schema parameters inner hun
    obtain ⟨vals', hreq⟩ := checkRequired_dict inner schema.requiredParams [] []
    obtain ⟨vals'', hopt⟩ := checkOptional_dict inner schema.optionalParams vals'
    by_cases he : ((schema.requiredParams.filter fun p => (alGet inner p).isNone).map
        (fun p => "Missing required parameter: " ++ p)).isEmpty
    · exact ⟨.valid vals'', by simp only [validateParameters, hun, hreq, List.nil_append,
        exceptBind_ok, hopt, he, if_true, exceptPure_eq]⟩
    · exact ⟨.invalid ((schema.requiredParams.filter fun p => (alGet inner p).isNone).map
        (fun p => "Missing required parameter: " ++ p)), by
        simp only [validateParameters, hun, hreq, List.nil_append, exceptBind_ok, hopt,
          he, if_false, Bool.false_eq_true, exceptPure_eq]⟩
  · intro autoApprove approvalOutcome execResult action tool fixed errors hreg hfix hval
    by_cases hc : (isDestructive action.toolName && !autoApprove && !approvalOutcome) = true
    · exact ⟨cancelledResult action.toolName, by simp only [act, hc, if_true], rfl⟩
    · exact ⟨invalidParamsResult errors, by
        simp only [act, hc, if_false, Bool.false_eq_true, hreg, hfix, hval], rfl⟩

/-- C4 witness: `read_file` with an empty parameter dict. -/
theorem c4_missing_required_params_witness :
    validateParameters ⟨["file_path"], []⟩ [] =
      .ok (.invalid ["Missing required parameter: file_path"])
    ∧ ∃ res, act false false ⟨true, Option.none, "ok"⟩ ⟨some "read_file", []⟩ =
        .ok (res, Option.none) ∧ res.success = false := by
  constructor
  · exact c4_missing_required_params.1 ⟨["file_path"], []⟩ [] [] rfl (by decide)
  · exact c4_missing_required_params.2.2 false false ⟨true, Option.none, "ok"⟩
      ⟨some "read_file", []⟩ ⟨["file_path"], []⟩ [] ["Missing required parameter: file_path"]
      rfl rfl rfl

/-- C3, counterexample.  `delete_file` is classified destructive but is not a
registered tool; with auto-approval off and the approval withheld, `act`
returns the user-cancellation record, not the unknown-tool error the claim
requires for every unregistered name. -/
theorem c3_counterexample :
    registryGet agentToolRegistry (some "delete_file") = Option.none
    ∧ act false false ⟨true, Option.none, "ok"⟩ ⟨some "delete_file", []⟩ =
        .ok ({ success := false, error := some "Operation cancelled by user",
               message := "User cancelled the delete_file operation" }, Option.none)
    ∧ (cancelledResult (some "delete_file")).message ≠
        (unknownToolResult (some "delete_file")).message := by
  refine ⟨rfl, rfl, by decide⟩

/-- C3 (amended): for every action whose tool name is not a registry key,
`act` never calls any tool's `execute` and fails; it returns the unknown-tool
error record unless the name is classified destructive, auto-approval is off
and the approval is withheld, in which case it returns the user-cancellation
record. -/
theorem c3_unknown_tool_amended :
    ∀ (autoApprove approvalOutcome : Bool) (execResult : ActResult) (action : AgentAction),
      registryGet agentToolRegistry action.toolName = Option.none →
      act autoApprove approvalOutcome execResult action =
        .ok ((if isDestructive action.toolName && !autoApprove && !approvalOutcome
              then cancelledResult action.toolName
              else unknownToolResult action.toolName), Option.none) := by
  intro autoApprove approvalOutcome execResult action hreg
  by_cases hc : (isDestructive action.toolName && !autoApprove && !approvalOutcome) = true
  · simp only [act, hc, if_true]
  · simp only [act, hc, if_false, Bool.false_eq_true, hreg]

/-- C3 witness: the amended theorem applied at `git_merge` (approved branch)
and at a tool name absent from both the registry and the destructive list. -/
theorem c3_unknown_tool_amended_witness :
    act true true ⟨true, Option.none, "ok"⟩ ⟨some "git_merge", []⟩ =
      .ok (unknownToolResult (some "git_merge"), Option.none)
    ∧ act false false ⟨true, Option.none, "ok"⟩ ⟨some "frobnicate", []⟩ =
      .ok (unknownToolResult (some "frobnicate"), Option.none) := by
  constructor
  · have h := c3_unknown_tool_amended true true ⟨true, Option.none, "ok"⟩
      ⟨some "git_merge", []⟩ rfl
    simpa using h
  · have h := c3_unknown_tool_amended false false ⟨true, Option.none, "ok"⟩
      ⟨some "frobnicate", []⟩ rfl
    simpa using h

/-! ## The rule-based fallback matchers
(`Agent._fallback_reasoning`, `src/agent/core.py` 536-630, and
`LLMIntegration._generate_fallback_response`, `src/agent/llm_integration.py`
603-675) -/

/-- The `{tool_name, parameters, reasoning}` dict both matchers produce. -/
structure ReasonedAction where
  toolName : String
  parameters : PyDict
  reasoning : String

/-- The phrase lists of the two matchers' branches, in source order. -/
def dirPhrases : List String :=
  ["list files", "list directory", "what files", "ls", "dir", "files in"]

def gitPhrases : List String := ["git status", "status of git", "git repo"]

def structurePhrases : List String :=
  ["project structure", "show structure", "directory structure"]

def readPhrases : List String :=
  ["read", "what\x27s in", "show me", "display", "what is in", "cat", "view"]

/-- `any(phrase in user_input for phrase in phrases)`. -/
def hasAnyPhraseL (phrases : List String) (s : List Char) : Bool :=
  phrases.any fun p => hasSub p.data s

/-- The two quote characters of the character class `["']`. -/
def isQuoteChar (c : Char) : Bool := c = Char.ofNat 34 || c = Char.ofNat 39

/-- Characters up to (and rest from) the first quote character, if any. -/
def takeToQuote : List Char → Option (List Char × List Char)
  | [] => Option.none
  | c :: cs =>
    if isQuoteChar c then some ([], c :: cs)
    else
      match takeToQuote cs with
      | some (a, r) => some (c :: a, r)
      | Option.none => Option.none

/-- The first regex alternative `["']([^"']+)["']` anchored at this position:
an opening quote, then — because the class `[^"']` excludes both quote
characters, the greedy `+` runs exactly to the next quote, which the closing
`["']` then consumes — a non-empty quote-free body terminated by a quote. -/
def tryQuoteAlt : List Char → Option (List Char)
  | [] => Option.none
  | c :: cs =>
    if isQuoteChar c then
      match takeToQuote cs with
      | some (body, _) => if body.isEmpty then Option.none else some body
      | Option.none => Option.none
    else Option.none

/-- The second regex alternative `\S+\.\S+` anchored at this position: it
matches iff the whitespace-free run starting here contains a `'.'` with at
least one character before and after it inside the run, and then the greedy
`\S+` on both sides extend the match to the whole run. -/
def tryDottedAlt (l : List Char) : Option (List Char) :=
  let run := l.takeWhile (fun c => ¬ pyIsSpaceChar c)
  if ((run.drop 1).dropLast).contains '.' then some run else Option.none

/-- `re.search(r'["\x27]([^"\x27]+)["\x27]|(\S+\.\S+)', s)` with the matched
group extracted: leftmost position wins, the quoted alternative is preferred
at equal positions (`group(1) or group(2)`). -/
def searchFilePattern : List Char → Option (List Char)
  | [] => Option.none
  | c :: cs =>
    match tryQuoteAlt (c :: cs) with
    | some g => some g
    | Option.none =>
      match tryDottedAlt (c :: cs) with
      | some g => some g
      | Option.none => searchFilePattern cs

/-- File-path extraction shared by both matchers' read branches: the regex
match if any, else the last whitespace-split word containing a dot, else the
`"test.txt"` default (the `for ... else` clause). -/
def extractFilePath (s : List Char) : List Char :=
  match searchFilePattern s with
  | some fp => fp
  | Option.none =>
    match (pyWords s).reverse.find? (fun w => w.contains '.') with
    | some w => w
    | Option.none => "test.txt".data

/-- How an f-string renders the preference value after the boolean
conversion. -/
def fStrOfVal : PyVal → String
  | .bool true => "True"
  | .bool false => "False"
  | .str s => s
  | _ => ""

/-- `"true"/"yes"/"on"` and `"false"/"no"/"off"` become booleans. -/
def convertBoolish (v : List Char) : PyVal :=
  if pyLower v = "true".data ∨ pyLower v = "yes".data ∨ pyLower v = "on".data then
    .bool true
  else if pyLower v = "false".data ∨ pyLower v = "no".data ∨ pyLower v = "off".data then
    .bool false
  else .str (String.mk v)

/-- The `user_input.startswith("set preference")` branch of
`_fallback_reasoning`; `none` when the branch falls through (no space between
name and value, or no such leading phrase). -/
def setPrefAction (s : List Char) : Option ReasonedAction :=
  if headMatches "set preference".data s then
    let rest :=
      match splitAtFirst "set preference".data s with
      | some (_, r) => r
      | Option.none => []
    let parts := pyStrip rest
    match splitAtFirst [' '] parts with
    | some (name, value) =>
      let prefName := pyStrip name
      let prefValue := convertBoolish (pyStrip value)
      some { toolName := "set_preference",
             parameters := [("key", .str (String.mk prefName)), ("value", prefValue)],
             reasoning := "User wants to set preference \x27" ++ String.mk prefName ++
               "\x27 to \x27" ++ fStrOfVal prefValue ++ "\x27 (fallback)" }
    | Option.none => Option.none
  else Option.none

/-- `Agent._fallback_reasoning` (`src/agent/core.py` 536-630). -/
def coreFallbackReasoning (userInput : String) : ReasonedAction :=
  let s := pyStrip (pyLower userInput.data)
  match setPrefAction s with
  | some a => a
  | Option.none =>
    if s = "show preferences".data then
      { toolName := "show_preferences", parameters := [],
        reasoning := "User wants to see current preferences (fallback)" }
    else if s = "show learning".data then
      { toolName := "show_learning", parameters := [],
        reasoning := "User wants to see learning summary (fallback)" }
    else if hasAnyPhraseL dirPhrases s then
      { toolName := "list_directory", parameters := [("path", .str ".")],
        reasoning := "User wants to list directory contents (fallback)" }
    else if hasAnyPhraseL gitPhrases s then
      { toolName := "git_status", parameters := [],
        reasoning := "User wants to check git status (fallback)" }
    else if hasAnyPhraseL structurePhrases s then
      { toolName := "get_structure", parameters := [("max_depth", .int 5)],
        reasoning := "User wants to see project structure (fallback)" }
    else if hasAnyPhraseL readPhrases s then
      { toolName := "read_file",
        parameters := [("file_path", .str (String.mk (extractFilePath s)))],
        reasoning := "User wants to read a file (fallback)" }
    else
      { toolName := "list_directory", parameters := [("path", .str ".")],
        reasoning := "Default fallback response" }

/-- One chat message. -/
structure ChatMsg where
  role : String
  content : String

/-- The two shapes `_generate_fallback_response` can return: a JSON-encoded
string (`json.dumps(response)`) for most branches, the Python dict itself for
the file-read branch. -/
inductive FallbackRet where
  | jsonText (a : ReasonedAction)
  | rawDict (a : ReasonedAction)

def isRawDict : FallbackRet → Bool
  | .rawDict _ => true
  | .jsonText _ => false

/-- `re.sub(r'^>\s*', '', s)`: one leading `>` and the following whitespace
run are removed. -/
def stripPromptMark (s : List Char) : List Char :=
  match s with
  | c :: cs => if c = '>' then cs.dropWhile pyIsSpaceChar else c :: cs
  | [] => []

/-- The last `"user"` message's content, `""` when there is none. -/
def lastUserContent (messages : List ChatMsg) : String :=
  match messages.reverse.find? (fun m => m.role = "user") with
  | some m => m.content
  | Option.none => ""

/-- `LLMIntegration._generate_fallback_response` (`src/agent/llm_integration.py`
603-675).  Unlike the loop-level matcher it has no preference branches, and
its read branch returns the dict without `json.dumps`. -/
def generateFallbackResponse (messages : List ChatMsg) : FallbackRet :=
  let m := pyLower (stripPromptMark (lastUserContent messages).data)
  if hasAnyPhraseL dirPhrases m then
    .jsonText
      { toolName := "list_directory", parameters := [("path", .str ".")],
        reasoning := "User wants to list directory contents (fallback)" }
  else if hasAnyPhraseL gitPhrases m then
    .jsonText
      { toolName := "git_status", parameters := [],
        reasoning := "User wants to check git status (fallback)" }
  else if hasAnyPhraseL structurePhrases m then
    .jsonText
      { toolName := "get_structure", parameters := [("max_depth", .int 5)],
        reasoning := "User wants to see project structure (fallback)" }
  else if hasAnyPhraseL readPhrases m then
    .rawDict
      { toolName := "read_file",
        parameters := [("file_path", .str (String.mk (extractFilePath m)))],
        reasoning := "User wants to read a file (fallback)" }
  else
    .jsonText
      { toolName := "list_directory", parameters := [("path", .str ".")],
        reasoning := "Default fallback response" }

/-- The `{"content": ...}` payload `generate_structured_response` builds when
every provider attempt raised: the fallback's JSON string, or — on the read
branch — the raw dict (on which `reason`'s `json.loads` later raises
`TypeError`). -/
inductive StructuredContent where
  | text (a : ReasonedAction)
  | badText (s : String)
  | raw (a : ReasonedAction)

def isContentRaw : StructuredContent → Bool
  | .raw _ => true
  | _ => false

/-- `generate_structured_response` when every provider attempt raised
(`src/agent/llm_integration.py` 245-247). -/
def generateStructuredAllFail (messages : List ChatMsg) : StructuredContent :=
  match generateFallbackResponse messages with
  | .jsonText a => .text a
  | .rawDict a => .raw a

/-- What `generate_structured_response` handed to `reason` can look like. -/
inductive ProviderResp where
  /-- the call raised; `reason`'s outer `except` catches it -/
  | raised
  /-- a dict with a `"content"` key -/
  | content (c : StructuredContent)
  /-- a dict *without* a `"content"` key (the Groq structured path returns
  `json.loads(content)` directly) -/
  | bareDict (d : PyDict)

/-- `reason`'s result: a validated (or fallback) action dict, or — on the
no-`"content"` path — the provider payload returned verbatim. -/
inductive ReasonOut where
  | action (a : ReasonedAction)
  | verbatim (d : PyDict)

/-- The response handling of `Agent.reason` (`src/agent/core.py` 227-250).
A `"content"` string parses back to its action, which is returned only if its
tool name is truthy and registered; a `"content"` dict makes `json.loads`
raise `TypeError`, which the outer `except` turns into the rule-based
fallback; a dict without `"content"` is returned verbatim, unvalidated. -/
def reasonDispatch (resp : ProviderResp) (userInput : String) : ReasonOut :=
  match resp with
  | .raised => .action (coreFallbackReasoning userInput)
  | .bareDict d => .verbatim d
  | .content (.badText _) => .action (coreFallbackReasoning userInput)
  | .content (.raw _) => .action (coreFallbackReasoning userInput)
  | .content (.text a) =>
    if ¬ a.toolName.isEmpty ∧ registeredToolNames.contains a.toolName then .action a
    else .action (coreFallbackReasoning userInput)

/-- `Agent.reason` when every provider attempt raised, so that
`generate_structured_response` returned its deterministic fallback. -/
def reasonAllFail (messages : List ChatMsg) (userInput : String) : ReasonOut :=
  reasonDispatch (.content (generateStructuredAllFail messages)) userInput

/-- The `startswith("set preference")` branch only ever names
`set_preference`. -/
theorem setPrefAction_toolName {s : List Char} {a : ReasonedAction}
    (h : setPrefAction s = some a) : a.toolName = "set_preference" := by
  unfold setPrefAction at h
  split_ifs at h
  split at h <;> dsimp only at h <;> split at h <;>
    first
      | (simp only [Option.some.injEq] at h; subst h; rfl)
      | cases h

/-- `_fallback_reasoning` always produces a non-empty, registered tool name:
it never fails closed. -/
theorem coreFallback_valid (userInput : String) :
    (coreFallbackReasoning userInput).toolName.isEmpty = false
    ∧ registeredToolNames.contains (coreFallbackReasoning userInput).toolName = true := by
  unfold coreFallbackReasoning
  dsimp only
  cases hsp : setPrefAction (pyStrip (pyLower userInput.data)) with
  | none => split_ifs <;> exact ⟨rfl, rfl⟩
  | some a =>
    rw [setPrefAction_toolName hsp]
    exact ⟨rfl, rfl⟩

/-- C1, counterexample.  When a provider "succeeds" with a parsed payload
lacking a `"content"` key (the Groq structured path returns `json.loads` of
the model output directly), `reason` returns that payload verbatim — its
registry validation is skipped — so a payload naming the unregistered tool
`bogus_tool` flows out of `reason` even though, in the claim's own terms, the
provider returned an invalid payload with an unknown tool name. -/
theorem c1_counterexample :
    reasonDispatch (.bareDict [("tool_name", .str "bogus_tool")]) "list files" =
      .verbatim [("tool_name", .str "bogus_tool")]
    ∧ registeredToolNames.contains "bogus_tool" = false := ⟨rfl, by decide⟩

/-- C1 (amended): whenever every provider attempt *raises* (so
`generate_structured_response` degrades to the deterministic fallback and
wraps it under `"content"`), and more generally whenever `reason` receives a
`"content"`-keyed payload — parsable or not — or an exception, `reason`
returns an action dict whose tool name is non-empty and registered; the
rule-based fallback matcher itself never fails closed.  (Only a provider
payload *without* a `"content"` key escapes validation, as the
counterexample shows.) -/
theorem c1_reason_fallback_amended :
    (∀ (messages : List ChatMsg) (userInput : String),
      ∃ a, reasonAllFail messages userInput = .action a
        ∧ a.toolName.isEmpty = false
        ∧ registeredToolNames.contains a.toolName = true)
    ∧ (∀ (c : StructuredContent) (userInput : String),
      ∃ a, reasonDispatch (.content c) userInput = .action a
        ∧ a.toolName.isEmpty = false
        ∧ registeredToolNames.contains a.toolName = true)
    ∧ (∀ userInput : String,
      ∃ a, reasonDispatch .raised userInput = .action a
        ∧ a.toolName.isEmpty = false
        ∧ registeredToolNames.contains a.toolName = true) := by
  have hcontent : ∀ (c : StructuredContent) (userInput : String),
      ∃ a, reasonDispatch (.content c) userInput = .action a
        ∧ a.toolName.isEmpty = false
        ∧ registeredToolNames.contains a.toolName = true := by
    intro c userInput
    cases c with
    | text a =>
      by_cases hv : ¬ a.toolName.isEmpty ∧ registeredToolNames.contains a.toolName
      · refine ⟨a, ?_, by simpa using hv.1, hv.2⟩
        unfold reasonDispatch
        dsimp only
        rw [if_pos hv]
      · obtain ⟨h1, h2⟩ := coreFallback_valid userInput
        refine ⟨coreFallbackReasoning userInput, ?_, h1, h2⟩
        unfold reasonDispatch
        dsimp only
        rw [if_neg hv]
    | badText s =>
      obtain ⟨h1, h2⟩ := coreFallback_valid userInput
      exact ⟨coreFallbackReasoning userInput, rfl, h1, h2⟩
    | raw a =>
      obtain ⟨h1, h2⟩ := coreFallback_valid userInput
      exact ⟨coreFallbackReasoning userInput, rfl, h1, h2⟩
  refine ⟨fun messages userInput => hcontent _ userInput, hcontent, ?_⟩
  intro userInput
  obtain ⟨h1, h2⟩ := coreFallback_valid userInput
  exact ⟨coreFallbackReasoning userInput, rfl, h1, h2⟩

/-- C9, counterexample.  The claim makes the dict-shaped return depend only
on the input matching a file-read phrase; but the branches are tried in
order, so `"read the files in src"` — which matches the read phrase `"read"`
*and* the directory phrase `"files in"` — takes the directory branch and
returns a JSON string, not a dict. -/
theorem c9_counterexample :
    hasAnyPhraseL readPhrases (pyLower (stripPromptMark
      (lastUserContent [⟨"user", "read the files in src"⟩]).data)) = true
    ∧ isRawDict (generateFallbackResponse [⟨"user", "read the files in src"⟩]) = false := by
  decide

/-- C9 (amended): `_generate_fallback_response` returns a raw Python dict
exactly when the last user message (after stripping a leading `>` and
lowercasing) matches a file-read phrase *and none of the earlier
directory-listing, git-status or project-structure phrases*; every other
input yields a JSON-encoded string, and the all-providers-failed
`{"content": ...}` payload wraps a dict in exactly the same cases. -/
theorem c9_fallback_return_shape_amended :
    ∀ messages : List ChatMsg,
      (isRawDict (generateFallbackResponse messages) = true
        ↔ (hasAnyPhraseL dirPhrases
              (pyLower (stripPromptMark (lastUserContent messages).data)) = false
            ∧ hasAnyPhraseL gitPhrases
              (pyLower (stripPromptMark (lastUserContent messages).data)) = false
            ∧ hasAnyPhraseL structurePhrases
              (pyLower (stripPromptMark (lastUserContent messages).data)) = false
            ∧ hasAnyPhraseL readPhrases
              (pyLower (stripPromptMark (lastUserContent messages).data)) = true))
      ∧ isContentRaw (generateStructuredAllFail messages) =
          isRawDict (generateFallbackResponse messages) := by
  intro messages
  constructor
  · unfold generateFallbackResponse
    dsimp only
    split_ifs with h1 h2 h3 h4 <;>
      simp_all [isRawDict]
  · unfold generateStructuredAllFail
    cases generateFallbackResponse messages <;> rfl


/-! ## Persistent memory: preferences and tool effectiveness
(`src/agent/memory/persistent_memory.py` 168-277).  Each SQL table is a list
of rows keyed by its primary key; the mutex serialises every operation, so
the store is modelled as a value threaded through the calls. -/

/-- One row of `user_preferences`.  `value` is stored as `json.dumps(value)`
and read back with `json.loads`, which is its inverse on `PyVal`s, so the
value is kept directly. -/
structure PrefRow where
  value : PyVal
  confidence : ℚ
  lastUpdated : ℚ
  usageCount : Nat

abbrev PrefStore := List (String × PrefRow)

/-- `store_preference`: `INSERT OR REPLACE` with
`usage_count = COALESCE((SELECT usage_count ...), 0) + 1`. -/
def storePreference (m : PrefStore) (key : String) (value : PyVal)
    (confidence : ℚ) (now : ℚ) : PrefStore :=
  let oldCount :=
    match alGet m key with
    | some r => r.usageCount
    | Option.none => 0
  alSet m key ⟨value, confidence, now, oldCount + 1⟩

/-- `get_preference`: the stored `(value, confidence)` pair, or
`(default, 0.0)` when the key is absent (or the stored text were
undecodable, which cannot happen for a value written by
`store_preference`). -/
def getPreference (m : PrefStore) (key : String) (defaultValue : PyVal) :
    PyVal × ℚ :=
  match alGet m key with
  | some r => (r.value, r.confidence)
  | Option.none => (defaultValue, 0)

/-- One row of `tool_effectiveness`. -/
structure EffRecord where
  successCount : Nat
  failureCount : Nat
  avgExecutionTime : ℚ
  lastUsed : ℚ

/-- The table, keyed by its `(tool_name, context_hash)` primary key. -/
abbrev EffStore := List ((String × String) × EffRecord)

/-- `record_tool_usage`: update the row (recomputing the running average as
`(old_avg * (n-1) + duration) / n` with `n` the new total), or insert a fresh
one. -/
def recordToolUsage (m : EffStore) (tool ctx : String) (success : Bool)
    (executionTime now : ℚ) : EffStore :=
  match alGet m (tool, ctx) with
  | some r =>
    let s := if success then r.successCount + 1 else r.successCount
    let f := if success then r.failureCount else r.failureCount + 1
    let total := s + f
    let avg := (r.avgExecutionTime * ((total : ℚ) - 1) + executionTime) / (total : ℚ)
    alSet m (tool, ctx) ⟨s, f, avg, now⟩
  | Option.none =>
    alSet m (tool, ctx)
      ⟨if success then 1 else 0, if success then 0 else 1, executionTime, now⟩

/-- The dict `get_tool_effectiveness` returns. -/
structure Effectiveness where
  successRate : ℚ
  usageCount : Nat
  avgExecutionTime : ℚ
  confidence : ℚ
deriving DecidableEq

/-- `get_tool_effectiveness`: `success_count / total` (with the `0.5` guard
the schema makes unreachable), neutral `0.5` prior with zero counts for an
unseen pair, confidence `min 1 (total / 10)`. -/
def getToolEffectiveness (m : EffStore) (tool ctx : String) : Effectiveness :=
  match alGet m (tool, ctx) with
  | some r =>
    let total := r.successCount + r.failureCount
    { successRate := if 0 < total then (r.successCount : ℚ) / (total : ℚ) else 1/2,
      usageCount := total,
      avgExecutionTime := r.avgExecutionTime,
      confidence := min 1 ((total : ℚ) / 10) }
  | Option.none =>
    { successRate := 1/2, usageCount := 0, avgExecutionTime := 0, confidence := 0 }

/-- One `record_tool_usage` call. -/
structure UsageEvent where
  tool : String
  ctx : String
  success : Bool
  executionTime : ℚ
  now : ℚ
deriving DecidableEq

/-- A sequence of `record_tool_usage` calls against a fresh store. -/
def applyUsageEvents (events : List UsageEvent) : EffStore :=
  events.foldl
    (fun m e => recordToolUsage m e.tool e.ctx e.success e.executionTime e.now) []

/-- The per-row effect of one event (proof helper). -/
def stepRec (r? : Option EffRecord) (e : UsageEvent) : EffRecord :=
  match r? with
  | some r =>
    let s := if e.success then r.successCount + 1 else r.successCount
    let f := if e.success then r.failureCount else r.failureCount + 1
    let total := s + f
    ⟨s, f, (r.avgExecutionTime * ((total : ℚ) - 1) + e.executionTime) / (total : ℚ), e.now⟩
  | Option.none =>
    ⟨if e.success then 1 else 0, if e.success then 0 else 1, e.executionTime, e.now⟩

theorem alGet_recordToolUsage (m : EffStore) (e : UsageEvent) (k : String × String) :
    alGet (recordToolUsage m e.tool e.ctx e.success e.executionTime e.now) k =
      if (e.tool, e.ctx) = k then some (stepRec (alGet m (e.tool, e.ctx)) e)
      else alGet m k := by
  unfold recordToolUsage stepRec
  cases alGet m (e.tool, e.ctx) <;> simp [alGet_alSet]

/-- The row of a key after a batch of events is the fold of its own events
over its initial row. -/
theorem alGet_applyEvents (events : List UsageEvent) :
    ∀ (m : EffStore) (k : String × String),
      alGet (events.foldl
          (fun m e => recordToolUsage m e.tool e.ctx e.success e.executionTime e.now) m) k =
        (events.filter fun e => (e.tool, e.ctx) = k).foldl
          (fun r? e => some (stepRec r? e)) (alGet m k) := by
  induction events with
  | nil => intro m k; rfl
  | cons e es ih =>
    intro m k
    rw [List.foldl_cons, ih, List.filter_cons]
    by_cases hk : (e.tool, e.ctx) = k
    · subst hk
      simp [alGet_recordToolUsage]
    · simp [alGet_recordToolUsage, hk]

/-- Any row a fold of events produces has a positive total count. -/
theorem foldl_stepRec_total (fs : List UsageEvent) :
    ∀ (r? : Option EffRecord),
      (∀ r, r? = some r → 0 < r.successCount + r.failureCount) →
      ∀ r, fs.foldl (fun r? e => some (stepRec r? e)) r? = some r →
        0 < r.successCount + r.failureCount := by
  induction fs with
  | nil => intro r? h r hr; exact h r hr
  | cons e es ih =>
    intro r? h r hr
    refine ih (some (stepRec r? e)) ?_ r hr
    intro r' hr'
    cases hr'
    cases r? with
    | none => cases hs : e.success <;> simp [stepRec, hs]
    | some r0 => cases hs : e.success <;> simp [stepRec, hs]

/-- A chain of all-success events starting from a success-only row keeps
`failure_count` at zero and adds its length to `success_count`. -/
theorem foldl_stepRec_success (fs : List UsageEvent) :
    ∀ (j : Nat) (a l : ℚ), (∀ e ∈ fs, e.success = true) →
      ∃ a' l', fs.foldl (fun r? e => some (stepRec r? e)) (some ⟨j, 0, a, l⟩) =
        some ⟨j + fs.length, 0, a', l'⟩ := by
  induction fs with
  | nil => intro j a l _; exact ⟨a, l, rfl⟩
  | cons e es ih =>
    intro j a l h
    have he : e.success = true := h e (List.mem_cons_self e es)
    rw [List.foldl_cons]
    have hst : stepRec (some ⟨j, 0, a, l⟩) e =
        ⟨j + 1, 0, (a * (((j + 1 : Nat) : ℚ) - 1) + e.executionTime) / ((j + 1 : Nat) : ℚ),
          e.now⟩ := by
      simp [stepRec, he]
    rw [hst]
    obtain ⟨a2, l2, h2⟩ := ih (j + 1)
      ((a * (((j + 1 : Nat) : ℚ) - 1) + e.executionTime) / ((j + 1 : Nat) : ℚ)) e.now
      (fun e' he' => h e' (List.mem_cons_of_mem e he'))
    refine ⟨a2, l2, ?_⟩
    rw [h2]
    congr 2
    simp only [List.length_cons]
    omega


/-- C6: `success_rate` is always in `[0,1]` for any call sequence; after `k`
consecutive recorded successes (and no failures) for a pair the rate is `1.0`
with `usage_count = k`; a never-recorded pair gets the neutral
`{0.5, 0, 0.0, 0.0}` prior. -/
theorem c6_tool_effectiveness :
    (∀ (events : List UsageEvent) (tool ctx : String),
      0 ≤ (getToolEffectiveness (applyUsageEvents events) tool ctx).successRate
      ∧ (getToolEffectiveness (applyUsageEvents events) tool ctx).successRate ≤ 1)
    ∧ (∀ (events : List UsageEvent) (tool ctx : String),
      events.filter (fun e => (e.tool, e.ctx) = (tool, ctx)) ≠ [] →
      (∀ e ∈ events.filter (fun e => (e.tool, e.ctx) = (tool, ctx)), e.success = true) →
      (getToolEffectiveness (applyUsageEvents events) tool ctx).successRate = 1
      ∧ (getToolEffectiveness (applyUsageEvents events) tool ctx).usageCount =
          (events.filter (fun e => (e.tool, e.ctx) = (tool, ctx))).length)
    ∧ (∀ (events : List UsageEvent) (tool ctx : String),
      events.filter (fun e => (e.tool, e.ctx) = (tool, ctx)) = [] →
      getToolEffectiveness (applyUsageEvents events) tool ctx =
        ⟨1/2, 0, 0, 0⟩) := by
  have hlook : ∀ (events : List UsageEvent) (tool ctx : String),
      alGet (applyUsageEvents events) (tool, ctx) =
        (events.filter fun e => (e.tool, e.ctx) = (tool, ctx)).foldl
          (fun r? e => some (stepRec r? e)) Option.none :=
    fun events tool ctx => alGet_applyEvents events [] (tool, ctx)
  refine ⟨?_, ?_, ?_⟩
  · intro events tool ctx
    unfold getToolEffectiveness
    rw [hlook]
    cases hres : (events.filter fun e => (e.tool, e.ctx) = (tool, ctx)).foldl
        (fun r? e => some (stepRec r? e)) Option.none with
    | none => norm_num
    | some r =>
      have htot : 0 < r.successCount + r.failureCount :=
        foldl_stepRec_total _ Option.none (by intro r h; cases h) r hres
      have hq : (0 : ℚ) < ((r.successCount + r.failureCount : Nat) : ℚ) := by
        exact_mod_cast htot
      constructor
      · dsimp only
        rw [if_pos htot]
        positivity
      · dsimp only
        rw [if_pos htot]
        rw [div_le_one hq]
        exact_mod_cast Nat.le_add_right r.successCount r.failureCount
  · intro events tool ctx hne hall
    unfold getToolEffectiveness
    rw [hlook]
    rcases hf : events.filter (fun e => (e.tool, e.ctx) = (tool, ctx)) with _ | ⟨e, rest⟩
    · exact absurd hf hne
    · rw [hf] at hall
      rw [hf]
      have he : e.success = true := hall e (List.mem_cons_self e rest)
      have hstep : stepRec Option.none e = ⟨1, 0, e.executionTime, e.now⟩ := by
        simp [stepRec, he]
      rw [List.foldl_cons, hstep]
      obtain ⟨a2, l2, h2⟩ := foldl_stepRec_success rest 1 e.executionTime e.now
        (fun e' he' => hall e' (List.mem_cons_of_mem e he'))
      rw [h2]
      have htot : 0 < 1 + rest.length + 0 := by omega
      constructor
      · dsimp only
        rw [if_pos htot]
        rw [div_eq_one_iff_eq]
        · norm_num
        · have : (0:ℚ) < ((1 + rest.length + 0 : Nat) : ℚ) := by exact_mod_cast htot
          exact ne_of_gt this
      · dsimp only
        simp
        omega
  · intro events tool ctx hf
    unfold getToolEffectiveness
    rw [hlook, hf]
    rfl

/-- C6 witness: two successes for `("read_file", "h1")` give rate `1` and
count `2`; the untouched pair `("write_file", "h1")` gets the neutral
prior. -/
theorem c6_tool_effectiveness_witness :
    (getToolEffectiveness (applyUsageEvents
        [⟨"read_file", "h1", true, 1, 100⟩, ⟨"read_file", "h1", true, 2, 101⟩])
      "read_file" "h1").successRate = 1
    ∧ (getToolEffectiveness (applyUsageEvents
        [⟨"read_file", "h1", true, 1, 100⟩, ⟨"read_file", "h1", true, 2, 101⟩])
      "read_file" "h1").usageCount = 2
    ∧ getToolEffectiveness (applyUsageEvents
        [⟨"read_file", "h1", true, 1, 100⟩, ⟨"read_file", "h1", true, 2, 101⟩])
      "write_file" "h1" = ⟨1/2, 0, 0, 0⟩ := by
  have h2 := c6_tool_effectiveness.2.1
    [⟨"read_file", "h1", true, 1, 100⟩, ⟨"read_file", "h1", true, 2, 101⟩]
    "read_file" "h1" (by decide) (by decide)
  have h3 := c6_tool_effectiveness.2.2
    [⟨"read_file", "h1", true, 1, 100⟩, ⟨"read_file", "h1", true, 2, 101⟩]
    "write_file" "h1" (by decide)
  exact ⟨h2.1, h2.2.trans (by decide), h3⟩

/-- C7: a `store_preference(key, v, c)` followed by `get_preference(key, d)`
returns `(v, c)` (in particular `("verbosity", "high", 0.9)` reads back as
`("high", 0.9)`), and a get of an absent key returns `(default, 0.0)`. -/
theorem c7_preference_roundtrip :
    (∀ (m : PrefStore) (key : String) (v : PyVal) (c now : ℚ) (dflt : PyVal),
      getPreference (storePreference m key v c now) key dflt = (v, c))
    ∧ (∀ (m : PrefStore) (key : String) (dflt : PyVal),
      alGet m key = Option.none → getPreference m key dflt = (dflt, 0))
    ∧ getPreference (storePreference [] "verbosity" (.str "high") (9/10) 0)
        "verbosity" (.str "normal") = (.str "high", 9/10) := by
  have h1 : ∀ (m : PrefStore) (key : String) (v : PyVal) (c now : ℚ) (dflt : PyVal),
      getPreference (storePreference m key v c now) key dflt = (v, c) := by
    intro m key v c now dflt
    unfold getPreference storePreference
    dsimp only
    rw [alGet_alSet, if_pos rfl]
  refine ⟨h1, ?_, h1 [] "verbosity" (.str "high") (9/10) 0 (.str "normal")⟩
  intro m key dflt h
  unfold getPreference
  rw [h]

/-- C7 witness: the round-trip theorem applied at the spec's own instance and
at an absent key. -/
theorem c7_preference_roundtrip_witness :
    getPreference [] "verbosity" (.str "normal") = (.str "normal", 0)
    ∧ getPreference (storePreference [] "verbosity" (.str "high") (9/10) 0)
        "verbosity" (.str "normal") = (.str "high", 9/10) :=
  ⟨c7_preference_roundtrip.2.1 [] "verbosity" (.str "normal") rfl,
    c7_preference_roundtrip.2.2⟩


/-! ## `PersistentMemory.generate_context_hash`
(`src/agent/memory/persistent_memory.py` 423-426):
`md5(json.dumps(context, sort_keys=True).encode()).hexdigest()`. -/

/-- Key order used by `sort_keys=True` (Python string comparison is
code-point lexicographic, as is Lean's). -/
def keyLE (p q : String × PyVal) : Prop := p.1 ≤ q.1

instance : DecidableRel keyLE := fun p q => inferInstanceAs (Decidable (p.1 ≤ q.1))

instance : IsTotal (String × PyVal) keyLE := ⟨fun a b => le_total a.1 b.1⟩

instance : IsTrans (String × PyVal) keyLE := ⟨fun _ _ _ h1 h2 => le_trans h1 h2⟩

/-- Strict key order (used to show sorted duplicate-free lists agree). -/
def keyLT (p q : String × PyVal) : Prop := p.1 < q.1

instance : IsAntisymm (String × PyVal) keyLT := ⟨fun _ _ h1 h2 => absurd h2 (lt_asymm h1)⟩

mutual
/-- `sort_keys=True` applied recursively: every dictionary's entries are put
in key order before serialisation. -/
def canon : PyVal → PyVal
  | .none => .none
  | .bool b => .bool b
  | .int n => .int n
  | .rat q => .rat q
  | .str s => .str s
  | .list xs => .list (canonList xs)
  | .dict es => .dict (List.insertionSort keyLE (canonEntries es))

def canonList : List PyVal → List PyVal
  | [] => []
  | v :: vs => canon v :: canonList vs

def canonEntries : List (String × PyVal) → List (String × PyVal)
  | [] => []
  | (k, v) :: es => (k, canon v) :: canonEntries es
end

/-- Lowercase hexadecimal digit. -/
def hexChar (n : Nat) : Char :=
  if n < 10 then Char.ofNat (48 + n) else Char.ofNat (97 + n - 10)

/-- A `\uXXXX` escape (backslash written by code point). -/
def uEscape (n : Nat) : List Char :=
  [Char.ofNat 92, 'u', hexChar (n / 4096 % 16), hexChar (n / 256 % 16),
    hexChar (n / 16 % 16), hexChar (n % 16)]

/-- `json.dumps` character escaping with the default `ensure_ascii=True`:
quote and backslash, the five short escapes, and `\uXXXX` (surrogate pairs
above the BMP) for anything outside the printable ASCII range. -/
def jsonEscapeChar (c : Char) : List Char :=
  let n := c.toNat
  if n = 34 then [Char.ofNat 92, Char.ofNat 34]
  else if n = 92 then [Char.ofNat 92, Char.ofNat 92]
  else if n = 10 then [Char.ofNat 92, 'n']
  else if n = 13 then [Char.ofNat 92, 'r']
  else if n = 9 then [Char.ofNat 92, 't']
  else if n = 8 then [Char.ofNat 92, 'b']
  else if n = 12 then [Char.ofNat 92, 'f']
  else if n < 32 ∨ 126 < n then
    if n < 65536 then uEscape n
    else uEscape (55296 + (n - 65536) / 1024) ++ uEscape (56320 + (n - 65536) % 1024)
  else [c]

/-- A JSON string literal. -/
def jsonQuote (s : String) : String :=
  String.mk (Char.ofNat 34 :: (s.data.map jsonEscapeChar).flatten ++ [Char.ofNat 34])

/-- `repr` of a Python float, for the floats that arise as JSON numbers.
Python float repr is shortest-round-trip decimal; it is modelled here only up
to the integral case (no modelled code path hashes a non-integral float and
no claim depends on this rendering). -/
def pyFloatRepr (q : ℚ) : String :=
  if q.den = 1 then toString q.num ++ ".0"
  else toString q.num ++ "/" ++ toString q.den

mutual
/-- `json.dumps` with default separators on an already-canonicalised value. -/
def dumpsRaw : PyVal → String
  | .none => "null"
  | .bool true => "true"
  | .bool false => "false"
  | .int n => toString n
  | .rat q => pyFloatRepr q
  | .str s => jsonQuote s
  | .list xs => "[" ++ dumpsList xs ++ "]"
  | .dict es => "\x7b" ++ dumpsEntries es ++ "\x7d"

def dumpsList : List PyVal → String
  | [] => ""
  | [v] => dumpsRaw v
  | v :: vs => dumpsRaw v ++ ", " ++ dumpsList vs

def dumpsEntries : List (String × PyVal) → String
  | [] => ""
  | [(k, v)] => jsonQuote k ++ ": " ++ dumpsRaw v
  | (k, v) :: es => jsonQuote k ++ ": " ++ dumpsRaw v ++ ", " ++ dumpsEntries es
end

/-- `json.dumps(v, sort_keys=True)`. -/
def pyDumpsSorted (v : PyVal) : String := dumpsRaw (canon v)

/-- `str.encode()` (UTF-8). -/
def utf8Char (c : Char) : List Nat :=
  let n := c.toNat
  if n < 128 then [n]
  else if n < 2048 then [192 + n / 64, 128 + n % 64]
  else if n < 65536 then [224 + n / 4096, 128 + n / 64 % 64, 128 + n % 64]
  else [240 + n / 262144, 128 + n / 4096 % 64, 128 + n / 64 % 64, 128 + n % 64]

def utf8Bytes (s : String) : List Nat := (s.data.map utf8Char).flatten

/-! ### MD5 (RFC 1321), on byte lists, with 32-bit words as `Nat` mod `2^32` -/

def addW (a b : Nat) : Nat := (a + b) % 4294967296

def notW (a : Nat) : Nat := Nat.xor a 4294967295

/-- Left rotation of a 32-bit word: the two shifted parts occupy disjoint
bit ranges, so their sum is their bitwise or. -/
def rotL (x s : Nat) : Nat := x * 2 ^ s % 4294967296 + x / 2 ^ (32 - s)

/-- The 64 additive constants `floor(2^32 * abs(sin(i+1)))`. -/
def md5K : List Nat :=
  [0xd76aa478, 0xe8c7b756, 0x242070db, 0xc1bdceee,
   0xf57c0faf, 0x4787c62a, 0xa8304613, 0xfd469501,
   0x698098d8, 0x8b44f7af, 0xffff5bb1, 0x895cd7be,
   0x6b901122, 0xfd987193, 0xa679438e, 0x49b40821,
   0xf61e2562, 0xc040b340, 0x265e5a51, 0xe9b6c7aa,
   0xd62f105d, 0x02441453, 0xd8a1e681, 0xe7d3fbc8,
   0x21e1cde6, 0xc33707d6, 0xf4d50d87, 0x455a14ed,
   0xa9e3e905, 0xfcefa3f8, 0x676f02d9, 0x8d2a4c8a,
   0xfffa3942, 0x8771f681, 0x6d9d6122, 0xfde5380c,
   0xa4beea44, 0x4bdecfa9, 0xf6bb4b60, 0xbebfbc70,
   0x289b7ec6, 0xeaa127fa, 0xd4ef3085, 0x04881d05,
   0xd9d4d039, 0xe6db99e5, 0x1fa27cf8, 0xc4ac5665,
   0xf4292244, 0x432aff97, 0xab9423a7, 0xfc93a039,
   0x655b59c3, 0x8f0ccc92, 0xffeff47d, 0x85845dd1,
   0x6fa87e4f, 0xfe2ce6e0, 0xa3014314, 0x4e0811a1,
   0xf7537e82, 0xbd3af235, 0x2ad7d2bb, 0xeb86d391]

/-- The per-round shift amounts. -/
def md5S : List Nat :=
  [7, 12, 17, 22, 7, 12, 17, 22, 7, 12, 17, 22, 7, 12, 17, 22,
   5, 9, 14, 20, 5, 9, 14, 20, 5, 9, 14, 20, 5, 9, 14, 20,
   4, 11, 16, 23, 4, 11, 16, 23, 4, 11, 16, 23, 4, 11, 16, 23,
   6, 10, 15, 21, 6, 10, 15, 21, 6, 10, 15, 21, 6, 10, 15, 21]

def md5F (i b c d : Nat) : Nat :=
  if i < 16 then Nat.lor (Nat.land b c) (Nat.land (notW b) d)
  else if i < 32 then Nat.lor (Nat.land d b) (Nat.land (notW d) c)
  else if i < 48 then Nat.xor b (Nat.xor c d)
  else Nat.xor c (Nat.lor b (notW d))

def md5G (i : Nat) : Nat :=
  if i < 16 then i
  else if i < 32 then (5 * i + 1) % 16
  else if i < 48 then (3 * i + 5) % 16
  else 7 * i % 16

/-- `count` bytes of `n`, little-endian. -/
def leBytes (n : Nat) : Nat → List Nat
  | 0 => []
  | count + 1 => n % 256 :: leBytes (n / 256) count

/-- Split into chunks of `n` bytes (the fuel bounds the recursion depth). -/
def chunksGo (n : Nat) : Nat → List Nat → List (List Nat)
  | _, [] => []
  | 0, l => [l]
  | fuel + 1, l => l.take n :: chunksGo n fuel (l.drop n)

def chunksOf (n : Nat) (l : List Nat) : List (List Nat) := chunksGo n l.length l

/-- Four little-endian bytes as one word. -/
def leWord : List Nat → Nat
  | [b0, b1, b2, b3] => b0 + 256 * b1 + 65536 * b2 + 16777216 * b3
  | _ => 0

/-- Append `0x80`, zero-pad to 56 mod 64, append the 64-bit little-endian
bit length. -/
def md5Pad (msg : List Nat) : List Nat :=
  let len := msg.length
  let zeros := (56 - (len + 1) % 64 + 64) % 64
  msg ++ [128] ++ List.replicate zeros 0 ++
    leBytes (len * 8 % 18446744073709551616) 8

/-- One round: `(A,B,C,D) ↦ (D, B + rotL (A+F+K[i]+M[g]) s[i], B, C)`. -/
def md5Step (m : List Nat) (st : Nat × Nat × Nat × Nat) (i : Nat) :
    Nat × Nat × Nat × Nat :=
  let (a, b, c, d) := st
  let f := addW (md5F i b c d) (addW a (addW (md5K.getD i 0) (m.getD (md5G i) 0)))
  (d, addW b (rotL f (md5S.getD i 0)), b, c)

/-- One 64-byte chunk. -/
def md5Chunk (st : Nat × Nat × Nat × Nat) (chunk : List Nat) :
    Nat × Nat × Nat × Nat :=
  let m := (chunksOf 4 chunk).map leWord
  let r := (List.range 64).foldl (md5Step m) st
  (addW st.1 r.1, addW st.2.1 r.2.1, addW st.2.2.1 r.2.2.1, addW st.2.2.2 r.2.2.2)

def md5Init : Nat × Nat × Nat × Nat :=
  (0x67452301, 0xefcdab89, 0x98badcfe, 0x10325476)

def md5Bytes (msg : List Nat) : List Nat :=
  let r := (chunksOf 64 (md5Pad msg)).foldl md5Chunk md5Init
  leBytes r.1 4 ++ leBytes r.2.1 4 ++ leBytes r.2.2.1 4 ++ leBytes r.2.2.2 4

def byteHex (b : Nat) : List Char := [hexChar (b / 16), hexChar (b % 16)]

/-- `hashlib.md5(data).hexdigest()`. -/
def md5Hex (msg : List Nat) : String := String.mk ((md5Bytes msg).map byteHex).flatten

/-- `PersistentMemory.generate_context_hash`. -/
def generateContextHash (context : PyDict) : String :=
  md5Hex (utf8Bytes (pyDumpsSorted (.dict context)))


theorem canonEntries_eq_map (l : List (String × PyVal)) :
    canonEntries l = l.map (fun p => (p.1, canon p.2)) := by
  induction l with
  | nil => simp [canonEntries]
  | cons p es ih =>
    obtain ⟨k, v⟩ := p
    simp [canonEntries, ih]

/-- Key-sorted duplicate-free permutations of one another are equal. -/
theorem sortPairs_eq_of_perm {l1 l2 : List (String × PyVal)}
    (hn : (l1.map Prod.fst).Nodup) (hp : l1.Perm l2) :
    List.insertionSort keyLE l1 = List.insertionSort keyLE l2 := by
  have hp2 : (List.insertionSort keyLE l1).Perm (List.insertionSort keyLE l2) :=
    (List.perm_insertionSort keyLE l1).trans
      (hp.trans (List.perm_insertionSort keyLE l2).symm)
  have hn1 : ((List.insertionSort keyLE l1).map Prod.fst).Nodup :=
    (((List.perm_insertionSort keyLE l1).map Prod.fst).nodup_iff).mpr hn
  have hn2 : ((List.insertionSort keyLE l2).map Prod.fst).Nodup :=
    (((List.perm_insertionSort keyLE l2).map Prod.fst).nodup_iff).mpr
      (((hp.map Prod.fst).nodup_iff).mp hn)
  have hstrict : ∀ (l : List (String × PyVal)), List.Sorted keyLE l →
      ((l.map Prod.fst).Nodup) → List.Sorted keyLT l := by
    intro l hle hnod
    rw [List.Nodup, List.pairwise_map] at hnod
    exact (List.Pairwise.and hle hnod).imp fun h => lt_of_le_of_ne h.1 h.2
  exact List.eq_of_perm_of_sorted hp2
    (hstrict _ (List.sorted_insertionSort keyLE l1) hn1)
    (hstrict _ (List.sorted_insertionSort keyLE l2) hn2)

/-- C8: `generate_context_hash` is deterministic, and order-independent: two
context dicts with the same key/value pairs in different insertion orders
canonicalise to the same key-sorted serialisation and so hash identically. -/
theorem c8_context_hash :
    (∀ context : PyDict, generateContextHash context = generateContextHash context)
    ∧ (∀ c1 c2 : PyDict, (c1.map Prod.fst).Nodup → c1.Perm c2 →
        generateContextHash c1 = generateContextHash c2) := by
  refine ⟨fun _ => rfl, ?_⟩
  intro c1 c2 hn hp
  have hcanon : canon (.dict c1) = canon (.dict c2) := by
    have h1 := canonEntries_eq_map c1
    have h2 := canonEntries_eq_map c2
    have hperm : (canonEntries c1).Perm (canonEntries c2) := by
      rw [h1, h2]
      exact hp.map _
    have hnod : ((canonEntries c1).map Prod.fst).Nodup := by
      rw [h1, List.map_map]
      exact hn
    simp only [canon]
    rw [sortPairs_eq_of_perm hnod hperm]
  unfold generateContextHash pyDumpsSorted
  rw [hcanon]

/-- C8 witness: the same two pairs inserted in either order hash equal. -/
theorem c8_context_hash_witness :
    generateContextHash [("a", .int 1), ("b", .str "x")] =
      generateContextHash [("b", .str "x"), ("a", .int 1)] :=
  c8_context_hash.2 [("a", .int 1), ("b", .str "x")] [("b", .str "x"), ("a", .int 1)]
    (by decide) (List.Perm.swap ("b", PyVal.str "x") ("a", PyVal.int 1) [])


/-! ## Safety approval flow (`src/agent/safety/safety.py` 71-107, 360-402) -/

/-- `_create_decision_key` keeps only the operation-specific parameter. -/
def simplifiedParams (operation : String) (parameters : PyDict) : PyDict :=
  if operation = "write_file" then
    [("file_path", (alGet parameters "file_path").getD (.str ""))]
  else if operation = "run_command" then
    [("command", (alGet parameters "command").getD (.str ""))]
  else if operation = "git_commit" then
    [("message", (alGet parameters "message").getD (.str ""))]
  else []

/-- `_create_decision_key`:
`md5(f"{operation}:{json.dumps(simplified_params, sort_keys=True)}")`. -/
def createDecisionKey (operation : String) (parameters : PyDict) : String :=
  md5Hex (utf8Bytes
    (operation ++ ":" ++ pyDumpsSorted (.dict (simplifiedParams operation parameters))))

/-- One entry of `approval_history`.  `decision_key` and `confidence` are
only ever added by a *later* call's `_remember_decision`; the generated
preview dict is filesystem-dependent and not modelled. -/
structure ApprovalEntry where
  operation : String
  parameters : PyDict
  approved : Bool
  timestamp : ℚ
  decisionKey : Option String
  confidence : Option ℚ

structure SafetyState where
  approvalHistory : List ApprovalEntry
  rememberDecisions : Bool
  confidenceThreshold : ℚ

/-- The `SafetyFramework.__init__` defaults. -/
def initialSafetyState : SafetyState :=
  { approvalHistory := [], rememberDecisions := true, confidenceThreshold := 4/5 }

/-- The scan of `reversed(self.approval_history)` in
`_get_remembered_decision`: `break` at the first entry older than the
cutoff, return the first entry carrying the probe key. -/
def scanDecisions (key : String) (cutoff : ℚ) : List ApprovalEntry → Option ApprovalEntry
  | [] => Option.none
  | e :: rest =>
    if e.timestamp < cutoff then Option.none
    else if e.decisionKey = some key then some e
    else scanDecisions key cutoff rest

/-- `_get_remembered_decision`: the remembered `{approved, confidence}` pair
within the trailing 7-day window, with the read-time `+0.1` nudge (capped at
`1.0`) applied to the *returned* confidence only — the stored entry is not
updated. -/
def getRememberedDecision (st : SafetyState) (operation : String)
    (parameters : PyDict) (now : ℚ) : Option (Bool × ℚ) :=
  let key := createDecisionKey operation parameters
  let cutoff := now - 7 * 24 * 60 * 60
  match scanDecisions key cutoff st.approvalHistory.reverse with
  | some e => some (e.approved, min 1 (e.confidence.getD (1/2) + 1/10))
  | Option.none => Option.none

/-- `_remember_decision`: attach the decision key and a fresh `0.5`
confidence to the *last existing* history entry.  It runs *before* the
current decision is appended, so the key lands on the previous entry (or
nowhere, on the first call). -/
def rememberDecision (st : SafetyState) (operation : String)
    (parameters : PyDict) : SafetyState :=
  match st.approvalHistory.getLast? with
  | Option.none => st
  | some last =>
    { st with approvalHistory := st.approvalHistory.dropLast ++
        [{ last with decisionKey := some (createDecisionKey operation parameters),
                     confidence := some (1/2) }] }

/-- What one `request_approval` call produced: its return value, the updated
framework state, and whether the approval callback / interactive prompt was
consulted. -/
structure ApprovalTrace where
  approved : Bool
  state : SafetyState
  promptInvoked : Bool

/-- The no-memoized-hit tail of `request_approval`: generate/display the
preview (not modelled: filesystem/console), consult the registered callback
or the manual prompt (its outcome enters as `oracle`), run
`_remember_decision`, then append the new history entry — without a
decision key. -/
def promptAndRecord (st : SafetyState) (operation : String) (parameters : PyDict)
    (now : ℚ) (oracle : Bool) : ApprovalTrace :=
  let approved := oracle
  let st1 := if st.rememberDecisions then rememberDecision st operation parameters else st
  let entry : ApprovalEntry :=
    { operation := operation, parameters := parameters, approved := approved,
      timestamp := now, decisionKey := Option.none, confidence := Option.none }
  { approved := approved,
    state := { st1 with approvalHistory := st1.approvalHistory ++ [entry] },
    promptInvoked := true }

/-- `SafetyFramework.request_approval`. -/
def requestApproval (st : SafetyState) (operation : String) (parameters : PyDict)
    (now : ℚ) (oracle : Bool) : ApprovalTrace :=
  let remembered :=
    if st.rememberDecisions then getRememberedDecision st operation parameters now
    else Option.none
  match remembered with
  | some (app, conf) =>
    if st.confidenceThreshold ≤ conf then ⟨app, st, false⟩
    else promptAndRecord st operation parameters now oracle
  | Option.none => promptAndRecord st operation parameters now oracle

/-- C2: the code evaluated at the failing input.  Two consecutive
`request_approval("write_file", {"file_path": "a.txt"})` calls, one second
apart, under the default configuration: the second call consults the
approval callback/prompt again — and does so for *every* threshold setting,
because `_remember_decision` runs before the history append, so the first
call stores no decision key at all (the second call then attaches the key to
the *first* entry, with confidence reset to `0.5`, below the default `0.8`
threshold, so the memoized path stays dead even afterwards). -/
theorem c2_memoization_bug :
    (let t1 := requestApproval initialSafetyState "write_file"
        [("file_path", .str "a.txt")] 1000 true
     let t2 := requestApproval t1.state "write_file"
        [("file_path", .str "a.txt")] 1001 true
     t1.promptInvoked = true ∧ t2.promptInvoked = true
       ∧ (t2.state.approvalHistory.map ApprovalEntry.decisionKey) =
          [some (createDecisionKey "write_file" [("file_path", .str "a.txt")]),
            Option.none]
       ∧ (t2.state.approvalHistory.map ApprovalEntry.confidence) =
          [some (1/2), Option.none])
    ∧ (∀ (threshold : ℚ) (oracle1 oracle2 : Bool),
      (requestApproval
        (requestApproval
          { approvalHistory := [], rememberDecisions := true,
            confidenceThreshold := threshold }
          "write_file" [("file_path", .str "a.txt")] 1000 oracle1).state
        "write_file" [("file_path", .str "a.txt")] 1001 oracle2).promptInvoked
          = true) := by
  constructor
  · refine ⟨rfl, ?_, ?_, ?_⟩ <;>
      simp [requestApproval, getRememberedDecision, scanDecisions, promptAndRecord,
        rememberDecision, initialSafetyState]
  · intro threshold oracle1 oracle2
    simp [requestApproval, getRememberedDecision, scanDecisions, promptAndRecord,
      rememberDecision]


/-! ## Working memory (`src/agent/memory/working_memory.py`) -/

/-- `del d[key]` (first binding with that key). -/
def alDelete {κ β : Type _} [DecidableEq κ] : List (κ × β) → κ → List (κ × β)
  | [], _ => []
  | (k, v) :: rest, key => if k = key then rest else (k, v) :: alDelete rest key

structure CacheInfo where
  lastAccessed : ℚ
  accessCount : Nat

structure FileEntry where
  content : String
  timestamp : ℚ
  size : Nat
  metadata : PyDict

structure GitStatusEntry where
  status : PyVal
  timestamp : ℚ

structure SuccessPattern where
  actionType : PyVal
  inputPattern : String
  timestamp : ℚ

structure ErrorEntry where
  errorType : PyVal
  action : PyDict
  timestamp : ℚ

/-- The dict `get_context_summary` builds for an active session. -/
structure ContextSummary where
  currentDirectory : String
  filesInMemory : List String
  recentActions : List PyVal
  gitStatus : Option PyVal
  sessionDuration : ℚ

/-- `get_context_summary` returns `{}` when no session is active. -/
inductive SummaryRet where
  | empty
  | summary (s : ContextSummary)

structure Interaction where
  timestamp : ℚ
  userInput : String
  action : PyDict
  result : PyDict
  contextSnapshot : SummaryRet

/-- One session's dict, as `start_session` creates it. -/
structure Session where
  startTime : ℚ
  interactions : List Interaction
  fileContents : List (String × FileEntry)
  gitStatus : Option GitStatusEntry
  currentDirectory : String
  contextCache : List (String × CacheInfo)
  errorHistory : List ErrorEntry
  successPatterns : List SuccessPattern
  userPreferences : List (String × PyVal)

/-- The `WorkingMemory` object.  `uuid4` session ids are modelled by the
fresh counter `nextId` (only their uniqueness matters); `max_sessions` is
the constant `10` from `__init__`. -/
structure WorkingMemory where
  sessions : List (Nat × Session)
  currentSessionId : Option Nat
  nextId : Nat

def freshSession (now : ℚ) (cwd : String) : Session :=
  { startTime := now, interactions := [], fileContents := [],
    gitStatus := Option.none, currentDirectory := cwd, contextCache := [],
    errorHistory := [], successPatterns := [], userPreferences := [] }

/-- `min(self.sessions.keys(), key=lambda k: start_time)`: Python `min`
keeps the first minimum in dict iteration (insertion) order. -/
def oldestSessionAux : Nat × ℚ → List (Nat × Session) → Nat × ℚ
  | best, [] => best
  | best, (k, s) :: rest =>
    if s.startTime < best.2 then oldestSessionAux (k, s.startTime) rest
    else oldestSessionAux best rest

def oldestSession : List (Nat × Session) → Option Nat
  | [] => Option.none
  | (k, s) :: rest => some (oldestSessionAux (k, s.startTime) rest).1

/-- `start_session`: insert a fresh session, make it current, then evict the
oldest-started session when more than 10 are retained. -/
def startSession (wm : WorkingMemory) (now : ℚ) (cwd : String) : Nat × WorkingMemory :=
  let sid := wm.nextId
  let sessions1 := wm.sessions ++ [(sid, freshSession now cwd)]
  let wm1 : WorkingMemory :=
    { sessions := sessions1, currentSessionId := some sid, nextId := wm.nextId + 1 }
  if 10 < sessions1.length then
    match oldestSession sessions1 with
    | some oldest => (sid, { wm1 with sessions := alDelete sessions1 oldest })
    | Option.none => (sid, wm1)
  else (sid, wm1)

/-- The `if not self.current_session_id: self.start_session()` prelude every
mutating operation runs. -/
def ensureSession (wm : WorkingMemory) (now : ℚ) (cwd : String) : WorkingMemory :=
  match wm.currentSessionId with
  | Option.none => (startSession wm now cwd).2
  | some _ => wm

/-- `get_context_summary`.  (For reachable states the current id is always a
key of the sessions map; a dangling id — which would be a `KeyError` in
Python — is mapped to the empty summary.) -/
def getContextSummary (wm : WorkingMemory) (now : ℚ) : SummaryRet :=
  match wm.currentSessionId with
  | Option.none => .empty
  | some sid =>
    match alGet wm.sessions sid with
    | Option.none => .empty
    | some session =>
      .summary
        { currentDirectory := session.currentDirectory,
          filesInMemory := session.fileContents.map Prod.fst,
          recentActions :=
            (session.interactions.drop (session.interactions.length - 3)).map
              (fun i => (alGet i.action "tool_name").getD (.str "")),
          gitStatus := session.gitStatus.map GitStatusEntry.status,
          sessionDuration := now - session.startTime }

/-- `_extract_pattern`: the first five lowercase words longer than three
characters that are not in the small stop list. -/
def extractPattern (text : String) : String :=
  let words := pyWords (pyLower text.data)
  let important := words.filter fun w =>
    3 < w.length ∧ w ∉ ["what".data, "that".data, "this".data, "with".data,
      "from".data, "have".data, "were".data]
  String.mk (List.intercalate [' '] (important.take 5))

/-- `add_interaction`. -/
def addInteraction (wm0 : WorkingMemory) (now : ℚ) (cwd : String)
    (userInput : String) (action result : PyDict) : WorkingMemory :=
  let wm := ensureSession wm0 now cwd
  match wm.currentSessionId with
  | Option.none => wm
  | some sid =>
    match alGet wm.sessions sid with
    | Option.none => wm
    | some session =>
      let interaction : Interaction :=
        { timestamp := now, userInput := userInput, action := action,
          result := result, contextSnapshot := getContextSummary wm now }
      let success := pyTruthy ((alGet result "success").getD (.bool false))
      let session1 :=
        { session with interactions := session.interactions ++ [interaction] }
      let session2 :=
        if success then
          { session1 with successPatterns := session1.successPatterns ++
              [{ actionType := (alGet action "tool_name").getD (.str ""),
                 inputPattern := extractPattern userInput, timestamp := now }] }
        else session1
      let session3 :=
        if ¬ success then
          { session2 with errorHistory := session2.errorHistory ++
              [{ errorType := (alGet result "error").getD (.str "Unknown error"),
                 action := action, timestamp := now }] }
        else session2
      { wm with sessions := alSet wm.sessions sid session3 }

/-- `store_file_content`. -/
def storeFileContent (wm0 : WorkingMemory) (now : ℚ) (cwd : String)
    (path content : String) (metadata : PyDict) : WorkingMemory :=
  let wm := ensureSession wm0 now cwd
  match wm.currentSessionId with
  | Option.none => wm
  | some sid =>
    match alGet wm.sessions sid with
    | Option.none => wm
    | some session =>
      let fileEntry : FileEntry :=
        { content := content, timestamp := now, size := content.length,
          metadata := metadata }
      let session1 := { session with
        fileContents := alSet session.fileContents path fileEntry }
      let oldCount := ((alGet session1.contextCache path).map CacheInfo.accessCount).getD 0
      let cacheEntry : CacheInfo := { lastAccessed := now, accessCount := oldCount + 1 }
      let session2 := { session1 with
        contextCache := alSet session1.contextCache path cacheEntry }
      { wm with sessions := alSet wm.sessions sid session2 }

/-- `update_git_status`. -/
def updateGitStatus (wm0 : WorkingMemory) (now : ℚ) (cwd : String)
    (gitStatus : PyVal) : WorkingMemory :=
  let wm := ensureSession wm0 now cwd
  match wm.currentSessionId with
  | Option.none => wm
  | some sid =>
    match alGet wm.sessions sid with
    | Option.none => wm
    | some session =>
      let session1 := { session with
        gitStatus := some { status := gitStatus, timestamp := now } }
      { wm with sessions := alSet wm.sessions sid session1 }

/-- `set_user_preference`. -/
def setUserPreference (wm0 : WorkingMemory) (now : ℚ) (cwd : String)
    (key : String) (value : PyVal) : WorkingMemory :=
  let wm := ensureSession wm0 now cwd
  match wm.currentSessionId with
  | Option.none => wm
  | some sid =>
    match alGet wm.sessions sid with
    | Option.none => wm
    | some session =>
      let session1 := { session with
        userPreferences := alSet session.userPreferences key value }
      { wm with sessions := alSet wm.sessions sid session1 }

/-- `get_file_content`: no session (or a cache miss) reads `None` and leaves
the state alone; a hit also bumps the access counter. -/
def getFileContent (wm : WorkingMemory) (now : ℚ) (path : String) :
    Option String × WorkingMemory :=
  match wm.currentSessionId with
  | Option.none => (Option.none, wm)
  | some sid =>
    match alGet wm.sessions sid with
    | Option.none => (Option.none, wm)
    | some session =>
      match alGet session.fileContents path with
      | Option.none => (Option.none, wm)
      | some fd =>
        let oldCount := ((alGet session.contextCache path).map CacheInfo.accessCount).getD 0
        let cacheEntry : CacheInfo := { lastAccessed := now, accessCount := oldCount + 1 }
        let session1 := { session with
          contextCache := alSet session.contextCache path cacheEntry }
        (some fd.content, { wm with sessions := alSet wm.sessions sid session1 })

/-- Python `l[-count:]` for a positive `count` (with `l[-0:] = l`). -/
def pySliceLast {α : Type _} (l : List α) (count : Nat) : List α :=
  if count = 0 then l else l.drop (l.length - count)

/-- `get_recent_interactions`. -/
def getRecentInteractions (wm : WorkingMemory) (count : Nat) : List Interaction :=
  match wm.currentSessionId with
  | Option.none => []
  | some sid =>
    match alGet wm.sessions sid with
    | Option.none => []
    | some session =>
      if count ≤ session.interactions.length then pySliceLast session.interactions count
      else session.interactions

/-- `get_user_preference`. -/
def getUserPreference (wm : WorkingMemory) (key : String) (defaultValue : PyVal) : PyVal :=
  match wm.currentSessionId with
  | Option.none => defaultValue
  | some sid =>
    match alGet wm.sessions sid with
    | Option.none => defaultValue
    | some session => (alGet session.userPreferences key).getD defaultValue


theorem alGet_append_fresh {κ β : Type _} [DecidableEq κ] (l : List (κ × β)) (k : κ)
    (v : β) (h : ∀ p ∈ l, p.1 ≠ k) : alGet (l ++ [(k, v)]) k = some v := by
  induction l with
  | nil => simp [alGet]
  | cons p rest ih =>
    obtain ⟨k0, v0⟩ := p
    have hp : k0 ≠ k := h (k0, v0) (List.mem_cons_self _ _)
    simp only [List.cons_append, alGet, if_neg hp]
    exact ih fun q hq => h q (List.mem_cons_of_mem _ hq)

theorem alGet_alDelete_ne {κ β : Type _} [DecidableEq κ] (l : List (κ × β)) (k k' : κ)
    (h : k ≠ k') : alGet (alDelete l k) k' = alGet l k' := by
  induction l with
  | nil => rfl
  | cons p rest ih =>
    obtain ⟨k0, v0⟩ := p
    by_cases h0 : k0 = k
    · subst h0
      simp [alDelete, alGet, h]
    · simp only [alDelete, if_neg h0, alGet]
      by_cases h1 : k0 = k' <;> simp [h1, ih]

theorem oldestSessionAux_key_mem (l : List (Nat × Session)) :
    ∀ best : Nat × ℚ, (oldestSessionAux best l).1 = best.1
      ∨ ∃ p ∈ l, p.1 = (oldestSessionAux best l).1 := by
  induction l with
  | nil => intro best; exact Or.inl rfl
  | cons p rest ih =>
    intro best
    obtain ⟨k, s⟩ := p
    simp only [oldestSessionAux]
    by_cases hlt : s.startTime < best.2
    · rw [if_pos hlt]
      rcases ih (k, s.startTime) with h | ⟨q, hq, he⟩
      · exact Or.inr ⟨(k, s), List.mem_cons_self _ _, h.symm⟩
      · exact Or.inr ⟨q, List.mem_cons_of_mem _ hq, he⟩
    · rw [if_neg hlt]
      rcases ih best with h | ⟨q, hq, he⟩
      · exact Or.inl h
      · exact Or.inr ⟨q, List.mem_cons_of_mem _ hq, he⟩

/-- A last element that starts no earlier than the running minimum is never
selected by the `min` scan. -/
theorem oldestSessionAux_drop_last (l : List (Nat × Session)) :
    ∀ (best : Nat × ℚ) (n : Nat) (s : Session), best.2 ≤ s.startTime →
      oldestSessionAux best (l ++ [(n, s)]) = oldestSessionAux best l := by
  induction l with
  | nil =>
    intro best n s h
    simp only [List.nil_append, oldestSessionAux]
    rw [if_neg (not_lt.mpr h)]
  | cons p rest ih =>
    intro best n s h
    obtain ⟨k, t⟩ := p
    simp only [List.cons_append, oldestSessionAux]
    by_cases hlt : t.startTime < best.2
    · rw [if_pos hlt, if_pos hlt]
      exact ih (k, t.startTime) n s (le_trans (le_of_lt hlt) h)
    · rw [if_neg hlt, if_neg hlt]
      exact ih best n s h

/-- When the new session starts no earlier than every retained one, the
evicted session is one of the retained ones. -/
theorem oldestSession_append_mem (l : List (Nat × Session)) (n : Nat) (s : Session)
    (hl : l ≠ []) (hclock : ∀ p ∈ l, p.2.startTime ≤ s.startTime) :
    ∃ b, oldestSession (l ++ [(n, s)]) = some b ∧ ∃ p ∈ l, p.1 = b := by
  cases l with
  | nil => exact absurd rfl hl
  | cons p0 rest =>
    obtain ⟨k0, s0⟩ := p0
    simp only [List.cons_append, oldestSession]
    rw [oldestSessionAux_drop_last rest (k0, s0.startTime) n s
      (hclock (k0, s0) (List.mem_cons_self _ _))]
    rcases oldestSessionAux_key_mem rest (k0, s0.startTime) with h | ⟨q, hq, he⟩
    · exact ⟨_, rfl, (k0, s0), List.mem_cons_self _ _, h.symm⟩
    · exact ⟨_, rfl, q, List.mem_cons_of_mem _ hq, he⟩

/-- `start_session` leaves the new session current and retained: the evicted
session (if any) is an older one, provided the clock is monotone (every
retained start time is `≤ now`) and the fresh id is genuinely fresh. -/
theorem startSession_valid (wm : WorkingMemory) (now : ℚ) (cwd : String)
    (hclock : ∀ p ∈ wm.sessions, p.2.startTime ≤ now)
    (hfresh : ∀ p ∈ wm.sessions, p.1 < wm.nextId) :
    (startSession wm now cwd).2.currentSessionId = some wm.nextId
    ∧ alGet (startSession wm now cwd).2.sessions wm.nextId =
        some (freshSession now cwd) := by
  have hne : ∀ p ∈ wm.sessions, p.1 ≠ wm.nextId := fun p hp => Nat.ne_of_lt (hfresh p hp)
  have hget : alGet (wm.sessions ++ [(wm.nextId, freshSession now cwd)]) wm.nextId =
      some (freshSession now cwd) := alGet_append_fresh _ _ _ hne
  unfold startSession
  dsimp only
  by_cases hlen : 10 < (wm.sessions ++ [(wm.nextId, freshSession now cwd)]).length
  · rw [if_pos hlen]
    have hlne : wm.sessions ≠ [] := by
      intro h
      rw [h] at hlen
      simp at hlen
    obtain ⟨b, hb, p, hp, hpb⟩ := oldestSession_append_mem wm.sessions wm.nextId
      (freshSession now cwd) hlne (fun p hp => hclock p hp)
    rw [hb]
    have hbne : b ≠ wm.nextId := hpb ▸ hne p hp
    exact ⟨rfl, by rw [alGet_alDelete_ne _ _ _ hbne]; exact hget⟩
  · rw [if_neg hlen]
    exact ⟨rfl, hget⟩

theorem ensureSession_valid (wm : WorkingMemory) (now : ℚ) (cwd : String)
    (hc : wm.currentSessionId = Option.none)
    (hclock : ∀ p ∈ wm.sessions, p.2.startTime ≤ now)
    (hfresh : ∀ p ∈ wm.sessions, p.1 < wm.nextId) :
    (ensureSession wm now cwd).currentSessionId = some wm.nextId
    ∧ alGet (ensureSession wm now cwd).sessions wm.nextId =
        some (freshSession now cwd) := by
  unfold ensureSession
  rw [hc]
  exact startSession_valid wm now cwd hclock hfresh


/-- C10: every mutating working-memory operation starts a session when none
is active (under a monotone clock and fresh session ids), leaving a current
session id that is a key of the sessions map; the read operations never
create a session and return `None`/empty/default with the state unchanged
when no session is active. -/
theorem c10_working_memory_sessions :
    (∀ (wm : WorkingMemory) (now : ℚ) (cwd userInput : String) (action result : PyDict),
      wm.currentSessionId = Option.none →
      (∀ p ∈ wm.sessions, p.2.startTime ≤ now) →
      (∀ p ∈ wm.sessions, p.1 < wm.nextId) →
      ∃ sid, (addInteraction wm now cwd userInput action result).currentSessionId = some sid
        ∧ (alGet (addInteraction wm now cwd userInput action result).sessions sid).isSome
          = true)
    ∧ (∀ (wm : WorkingMemory) (now : ℚ) (cwd path content : String) (metadata : PyDict),
      wm.currentSessionId = Option.none →
      (∀ p ∈ wm.sessions, p.2.startTime ≤ now) →
      (∀ p ∈ wm.sessions, p.1 < wm.nextId) →
      ∃ sid, (storeFileContent wm now cwd path content metadata).currentSessionId = some sid
        ∧ (alGet (storeFileContent wm now cwd path content metadata).sessions sid).isSome
          = true)
    ∧ (∀ (wm : WorkingMemory) (now : ℚ) (cwd key : String) (value : PyVal),
      wm.currentSessionId = Option.none →
      (∀ p ∈ wm.sessions, p.2.startTime ≤ now) →
      (∀ p ∈ wm.sessions, p.1 < wm.nextId) →
      ∃ sid, (setUserPreference wm now cwd key value).currentSessionId = some sid
        ∧ (alGet (setUserPreference wm now cwd key value).sessions sid).isSome = true)
    ∧ (∀ (wm : WorkingMemory) (now : ℚ) (cwd : String) (gitStatus : PyVal),
      wm.currentSessionId = Option.none →
      (∀ p ∈ wm.sessions, p.2.startTime ≤ now) →
      (∀ p ∈ wm.sessions, p.1 < wm.nextId) →
      ∃ sid, (updateGitStatus wm now cwd gitStatus).currentSessionId = some sid
        ∧ (alGet (updateGitStatus wm now cwd gitStatus).sessions sid).isSome = true)
    ∧ (∀ (wm : WorkingMemory) (now : ℚ) (path : String),
      wm.currentSessionId = Option.none → getFileContent wm now path = (Option.none, wm))
    ∧ (∀ (wm : WorkingMemory) (count : Nat),
      wm.currentSessionId = Option.none → getRecentInteractions wm count = [])
    ∧ (∀ (wm : WorkingMemory) (key : String) (d : PyVal),
      wm.currentSessionId = Option.none → getUserPreference wm key d = d)
    ∧ (∀ (wm : WorkingMemory) (now : ℚ),
      wm.currentSessionId = Option.none → getContextSummary wm now = .empty) := by
  refine ⟨?_, ?_, ?_, ?_, ?_, ?_, ?_, ?_⟩
  · intro wm now cwd userInput action result hc hclock hfresh
    obtain ⟨h1, h2⟩ := ensureSession_valid wm now cwd hc hclock hfresh
    refine ⟨wm.nextId, ?_, ?_⟩
    · unfold addInteraction
      dsimp only
      rw [h1]
      dsimp only
      rw [h2]
    · unfold addInteraction
      dsimp only
      rw [h1]
      dsimp only
      rw [h2]
      dsimp only
      rw [alGet_alSet, if_pos rfl]
      rfl
  · intro wm now cwd path content metadata hc hclock hfresh
    obtain ⟨h1, h2⟩ := ensureSession_valid wm now cwd hc hclock hfresh
    refine ⟨wm.nextId, ?_, ?_⟩
    · unfold storeFileContent
      dsimp only
      rw [h1]
      dsimp only
      rw [h2]
    · unfold storeFileContent
      dsimp only
      rw [h1]
      dsimp only
      rw [h2]
      dsimp only
      rw [alGet_alSet, if_pos rfl]
      rfl
  · intro wm now cwd key value hc hclock hfresh
    obtain ⟨h1, h2⟩ := ensureSession_valid wm now cwd hc hclock hfresh
    refine ⟨wm.nextId, ?_, ?_⟩
    · unfold setUserPreference
      dsimp only
      rw [h1]
      dsimp only
      rw [h2]
    · unfold setUserPreference
      dsimp only
      rw [h1]
      dsimp only
      rw [h2]
      dsimp only
      rw [alGet_alSet, if_pos rfl]
      rfl
  · intro wm now cwd gitStatus hc hclock hfresh
    obtain ⟨h1, h2⟩ := ensureSession_valid wm now cwd hc hclock hfresh
    refine ⟨wm.nextId, ?_, ?_⟩
    · unfold updateGitStatus
      dsimp only
      rw [h1]
      dsimp only
      rw [h2]
    · unfold updateGitStatus
      dsimp only
      rw [h1]
      dsimp only
      rw [h2]
      dsimp only
      rw [alGet_alSet, if_pos rfl]
      rfl
  · intro wm now path hc
    unfold getFileContent
    rw [hc]
  · intro wm count hc
    unfold getRecentInteractions
    rw [hc]
  · intro wm key d hc
    unfold getUserPreference
    rw [hc]
  · intro wm now hc
    unfold getContextSummary
    rw [hc]

/-- C10 witness: the theorem applied to an empty working memory. -/
theorem c10_working_memory_sessions_witness :
    (∃ sid, (addInteraction ⟨[], Option.none, 0⟩ 5 "/w" "hi" [] []).currentSessionId
        = some sid
      ∧ (alGet (addInteraction ⟨[], Option.none, 0⟩ 5 "/w" "hi" [] []).sessions sid).isSome
        = true)
    ∧ getFileContent ⟨[], Option.none, 0⟩ 5 "a.txt" = (Option.none, ⟨[], Option.none, 0⟩)
    ∧ getRecentInteractions ⟨[], Option.none, 0⟩ 3 = []
    ∧ getUserPreference ⟨[], Option.none, 0⟩ "verbosity" (.str "normal") = .str "normal"
    ∧ getContextSummary ⟨[], Option.none, 0⟩ 5 = .empty := by
  refine ⟨?_, ?_, ?_, ?_, ?_⟩
  · exact c10_working_memory_sessions.1 ⟨[], Option.none, 0⟩ 5 "/w" "hi" [] [] rfl
      (by simp) (by simp)
  · exact c10_working_memory_sessions.2.2.2.2.1 ⟨[], Option.none, 0⟩ 5 "a.txt" rfl
  · exact c10_working_memory_sessions.2.2.2.2.2.1 ⟨[], Option.none, 0⟩ 3 rfl
  · exact c10_working_memory_sessions.2.2.2.2.2.2.1 ⟨[], Option.none, 0⟩ "verbosity"
      (.str "normal") rfl
  · exact c10_working_memory_sessions.2.2.2.2.2.2.2 ⟨[], Option.none, 0⟩ 5 rfl

end AgentSpec
